import Mathlib

/-!
Verification development for the chrome-agent repository.

The page-state pagination and element-addressing core of the repository
(`parser/page_parser.py`, `parser/browser_manager.py`, the action tools in
`tools/`, the tool wrappers in `agent/tools_config.py`, and the retry loop in
`cli/interface.py`) is embedded shallowly below:

* Python strings holding page text are modelled as `List Char` (slicing by
  code point corresponds to `List.take`/`List.drop`); short metadata strings
  (urls, titles, element labels) stay `String`.
* Pixel coordinates (Playwright bounding boxes, scroll heights, band
  boundaries) are floats in the source; they are modelled as rationals `ℚ`,
  which supports the exact arithmetic (`x + w / 2`, `y_start + h`) the source
  performs on integer-valued configuration sizes.
* `async` methods are pure state transformers: the live page is abstracted as
  a `PageModel` value holding what the driver calls would return, and the
  mutable `BrowserManager` object is a `BMState` value threaded explicitly.
* Python exceptions become `Except`/`Option` results; the per-element
  `try/except: continue` blocks of the extractors become element skipping.
-/

namespace ChromeAgent

/-- Python strings are modelled as lists of characters (Python slices and
truncations index by code point, which is `List.take`/`List.drop` here). -/
abbrev Str := List Char

/-- Python's `a or b` on an optional string: `None` and `""` are falsy. -/
def pyOr (o : Option Str) (d : Str) : Str :=
  match o with
  | none => d
  | some s => if s = [] then d else s

/-- Python's `str.strip()`: drop whitespace from both ends. -/
def pyStrip (s : Str) : Str :=
  ((s.dropWhile Char.isWhitespace).reverse.dropWhile Char.isWhitespace).reverse

/-! ## Data model (`models/button.py`, `models/input_field.py`,
`models/link.py`, `models/page.py`)

`total_items` is an `Int` because the source first builds every chunk with
the placeholder value `-1` and back-fills the true count afterwards. -/

/-- `models/button.py` `Button`: the agent-facing button view. -/
structure Button where
  id : Nat
  text : Str
  position : ℚ × ℚ
  parent_text : Option Str
deriving DecidableEq, Repr

/-- `models/button.py` `ButtonInternal`: same metadata plus a live Playwright
locator.  The locator itself is outside the embedding; the fields the
repository reads back (`id`, `text`, `position`, `parent_text`) are kept. -/
structure ButtonInternal where
  id : Nat
  text : Str
  position : ℚ × ℚ
  parent_text : Option Str
deriving DecidableEq, Repr

/-- `models/input_field.py` `Input`: the agent-facing input view. -/
structure Input where
  id : Nat
  input_type : Str
  name : Str
  placeholder : Str
  position : ℚ × ℚ
  parent_text : Option Str
deriving DecidableEq, Repr

/-- `models/input_field.py` `InputInternal` minus the live locator. -/
structure InputInternal where
  id : Nat
  input_type : Str
  name : Str
  placeholder : Str
  position : ℚ × ℚ
  parent_text : Option Str
deriving DecidableEq, Repr

/-- `models/link.py` `Link`.  Note that the pydantic model declares
`position` and `selector` as required fields. -/
structure Link where
  text : Str
  position : ℚ × ℚ
  url : Str
  parent_text : Option Str
  selector : Str
deriving DecidableEq, Repr

/-- `models/page.py` `PageTextItem`. -/
structure PageTextItem where
  item_id : Nat
  total_items : Int
  url : Str
  title : Str
  text_chunk : List Char
deriving DecidableEq, Repr

/-- `models/page.py` `PageButtonsItem`. -/
structure PageButtonsItem where
  item_id : Nat
  total_items : Int
  url : Str
  title : Str
  buttons : List Button
  inputs : List Input
deriving DecidableEq, Repr

/-- `models/page.py` `PageLinksItem`. -/
structure PageLinksItem where
  item_id : Nat
  total_items : Int
  url : Str
  title : Str
  links : List Link
deriving DecidableEq, Repr

/-! ## Fixed-size chunking (`page_parser.py` lines 283-291 and 409-417)

Both the text loop `for i in range(0, len(full_text), chunk_size)` and the
links loop `for i in range(0, len(all_links), chunk_size)` slice the sequence
into consecutive pieces of `chunk_size` elements.  `chunkList` is that slicing
for an arbitrary element type.  Python's `range` with step `0` raises
`ValueError`; the model returns `[]` in that case and every theorem assumes a
positive chunk size. -/

def chunkList {α : Type} : List α → Nat → List (List α)
  | [], _ => []
  | _ :: _, 0 => []
  | x :: xs, c + 1 =>
      (x :: xs).take (c + 1) :: chunkList ((x :: xs).drop (c + 1)) (c + 1)
termination_by l _ => l.length
decreasing_by
  simp only [List.length_drop, List.length_cons]
  omega

theorem chunkList_nil {α : Type} (c : Nat) : chunkList ([] : List α) c = [] := by
  simp [chunkList]

theorem chunkList_cons {α : Type} (l : List α) (c : Nat)
    (hl : l ≠ []) (hc : c ≠ 0) :
    chunkList l c = l.take c :: chunkList (l.drop c) c := by
  cases l with
  | nil => exact absurd rfl hl
  | cons x xs =>
    cases c with
    | zero => exact absurd rfl hc
    | succ c => simp [chunkList]

/-- Concatenating the chunks in order restores the original list. -/
theorem chunkList_flatten {α : Type} (l : List α) (c : Nat) (hc : 0 < c) :
    (chunkList l c).flatten = l := by
  suffices H : ∀ n (l : List α), l.length = n → (chunkList l c).flatten = l by
    exact H l.length l rfl
  intro n
  induction n using Nat.strong_induction_on with
  | _ n ih =>
    intro l hn
    rcases eq_or_ne l [] with rfl | hl
    · simp [chunkList_nil]
    · rw [chunkList_cons l c hl (Nat.pos_iff_ne_zero.mp hc)]
      have hlen : 0 < l.length := List.length_pos.mpr hl
      have hdrop : (l.drop c).length < n := by
        subst hn; simp only [List.length_drop]; omega
      rw [List.flatten_cons, ih (l.drop c).length hdrop (l.drop c) rfl]
      exact List.take_append_drop c l

/-- The number of chunks is `⌈length / c⌉`, written with natural division. -/
theorem chunkList_length {α : Type} (l : List α) (c : Nat) (hc : 0 < c) :
    (chunkList l c).length = (l.length + c - 1) / c := by
  suffices H : ∀ n (l : List α), l.length = n →
      (chunkList l c).length = (l.length + c - 1) / c by
    exact H l.length l rfl
  intro n
  induction n using Nat.strong_induction_on with
  | _ n ih =>
    intro l hn
    rcases eq_or_ne l [] with rfl | hl
    · rw [chunkList_nil]
      simp [Nat.div_eq_of_lt (show c - 1 < c by omega)]
    · rw [chunkList_cons l c hl (Nat.pos_iff_ne_zero.mp hc)]
      have hlen : 0 < l.length := List.length_pos.mpr hl
      have hdrop : (l.drop c).length < n := by
        subst hn; simp only [List.length_drop]; omega
      rw [List.length_cons, ih (l.drop c).length hdrop (l.drop c) rfl]
      simp only [List.length_drop]
      rcases le_or_lt l.length c with hle | hgt
      · have e0 : l.length - c + c - 1 = c - 1 := by omega
        have e1 : l.length + c - 1 = l.length - 1 + c := by omega
        rw [e0, e1, Nat.add_div_right _ hc,
          Nat.div_eq_of_lt (show c - 1 < c by omega),
          Nat.div_eq_of_lt (show l.length - 1 < c by omega)]
      · have e0 : l.length - c + c - 1 = l.length - c - 1 + c := by omega
        have e1 : l.length + c - 1 = l.length - c - 1 + c + c := by omega
        rw [e0, e1, Nat.add_div_right _ hc, Nat.add_div_right _ hc,
          Nat.add_div_right _ hc]

/-- The length of the final chunk is `length mod c`, or `c` itself when the
length is a nonzero multiple of `c`. -/
theorem chunkList_getLast_length {α : Type} (l : List α) (c : Nat)
    (hc : 0 < c) (hl : l ≠ []) :
    ∃ t, (chunkList l c).getLast? = some t ∧
      t.length = (if l.length % c = 0 then c else l.length % c) := by
  suffices H : ∀ n (l : List α), l.length = n → l ≠ [] →
      ∃ t, (chunkList l c).getLast? = some t ∧
        t.length = (if l.length % c = 0 then c else l.length % c) by
    exact H l.length l rfl hl
  intro n
  induction n using Nat.strong_induction_on with
  | _ n ih =>
    intro l hn hl
    rw [chunkList_cons l c hl (Nat.pos_iff_ne_zero.mp hc)]
    have hlen : 0 < l.length := List.length_pos.mpr hl
    rcases Nat.lt_or_ge l.length c with hlt | hge
    · have hdrop : l.drop c = [] := by
        apply List.eq_nil_of_length_eq_zero
        simp only [List.length_drop]; omega
      rw [hdrop, chunkList_nil]
      refine ⟨l.take c, rfl, ?_⟩
      have h1 : (l.take c).length = l.length := by
        simp only [List.length_take]; omega
      have h2 : l.length % c = l.length := Nat.mod_eq_of_lt hlt
      rw [h1, h2, if_neg (by omega)]
    · rcases Nat.eq_or_lt_of_le hge with heq | hgt
      · -- length = c : the whole list is a single chunk of size c
        have hdrop : l.drop c = [] := by
          apply List.eq_nil_of_length_eq_zero
          simp only [List.length_drop]; omega
        rw [hdrop, chunkList_nil]
        refine ⟨l.take c, rfl, ?_⟩
        have h1 : (l.take c).length = c := by
          simp only [List.length_take]; omega
        have h2 : l.length % c = 0 := by
          rw [← heq, Nat.mod_self]
        simp [h1, h2]
      · -- length > c : the tail decides, with the same residue
        have hdne : l.drop c ≠ [] := by
          intro h
          have := congrArg List.length h
          simp only [List.length_drop, List.length_nil] at this
          omega
        have hdlen : (l.drop c).length < n := by
          subst hn; simp only [List.length_drop]; omega
        obtain ⟨t, ht, htl⟩ := ih (l.drop c).length hdlen (l.drop c) rfl hdne
        refine ⟨t, ?_, ?_⟩
        · rw [List.getLast?_cons, ht]
          cases hchunk : chunkList (l.drop c) c with
          | nil => rw [hchunk] at ht; simp at ht
          | cons a as => simp
        · have hmod : (l.drop c).length % c = l.length % c := by
            simp only [List.length_drop]
            conv_rhs => rw [show l.length = l.length - c + c by omega]
            rw [Nat.add_mod_right]
          rw [htl, hmod]

/-! ## Raw page data

A `PageModel` packages what the driver calls performed by `PageParser` would
return for the current page: `page.url`, `page.title()`, the visible text,
the element lists produced by the `query_selector_all` families, and
`document.body.scrollHeight`.  Each raw element records the values of the
per-element driver calls; its `raises` flag marks an element for which one of
those awaited calls throws (stale handle, detached node), which the source
swallows with `except Exception: continue`. -/

/-- One element returned by the button selector family (`page_parser.py`
lines 41-46, the concatenation of the four selector queries in order). -/
structure RawButtonElem where
  visible : Bool
  text_content : Option Str
  value_attr : Option Str
  box : Option (ℚ × ℚ × ℚ × ℚ)
  parent_text : Option Str
  raises : Bool
deriving DecidableEq, Repr

/-- One element returned by the input selector family (`page_parser.py`
lines 141-150, concatenated in order); `from_textarea_selector` records
whether the element came from the `textarea` selector. -/
structure RawInputElem where
  visible : Bool
  type_attr : Option Str
  from_textarea_selector : Bool
  name_attr : Option Str
  placeholder_attr : Option Str
  box : Option (ℚ × ℚ × ℚ × ℚ)
  parent_text : Option Str
  raises : Bool
deriving DecidableEq, Repr

/-- One element returned by `query_selector_all('a[href]')`.  `resolved_url`
is what `new URL(href, window.location.href).href` evaluates to and
`resolve_raises` marks the inner `try` failing, which falls back to the raw
href. -/
structure RawLinkElem where
  visible : Bool
  text_content : Option Str
  aria_label : Option Str
  href : Option Str
  resolve_raises : Bool
  resolved_url : Str
  parent_text : Option Str
  raises : Bool
deriving DecidableEq, Repr

/-- The live page as seen through the driver calls `PageParser` makes. -/
structure PageModel where
  url : Str
  title : Str
  visible_text : Str
  button_elems : List RawButtonElem
  input_elems : List RawInputElem
  link_elems : List RawLinkElem
  scroll_height : ℚ
deriving DecidableEq, Repr

/-- The three pagination sizes read from `config` by `page_parser.py`
(`config.text_chunk_size`, `config.parse_item_size`,
`config.links_chunk_size`).  The `Config` class in `config.py` does not
define these attributes (the unit tests inject them into a mock), so they
are free parameters of the model. -/
structure PaginationConfig where
  text_chunk_size : Nat
  parse_item_size : ℚ
  links_chunk_size : Nat
deriving DecidableEq, Repr

/-! ## Element extraction (`page_parser.py` lines 36-212)

`PageParser._generate_element_id` returns the current counter value and
increments it; the counter is threaded through the extractors below.  An
element whose processing raises, that is not visible, or that has no
bounding box is skipped without consuming an id (every raising call in the
source precedes `_generate_element_id`). -/

/-- `extract_buttons` (lines 36-92): returns the final id counter, the
internal list and the agent-facing list. -/
def extract_buttons (counter : Nat) :
    List RawButtonElem → Nat × List ButtonInternal × List Button
  | [] => (counter, [], [])
  | e :: rest =>
    if e.raises ∨ e.visible = false then extract_buttons counter rest
    else
      match e.box with
      | none => extract_buttons counter rest
      | some (x, y, w, h) =>
        let text := (pyStrip (pyOr e.text_content (pyOr e.value_attr []))).take 100
        let position : ℚ × ℚ := (x + w / 2, y + h / 2)
        let element_id := counter
        let res := extract_buttons (counter + 1) rest
        (res.1,
          ⟨element_id, text, position, e.parent_text⟩ :: res.2.1,
          ⟨element_id, text, position, e.parent_text⟩ :: res.2.2)

/-- `extract_inputs` (lines 136-201). -/
def extract_inputs (counter : Nat) :
    List RawInputElem → Nat × List InputInternal × List Input
  | [] => (counter, [], [])
  | e :: rest =>
    if e.raises ∨ e.visible = false then extract_inputs counter rest
    else
      match e.box with
      | none => extract_inputs counter rest
      | some (x, y, w, h) =>
        let input_type0 := pyOr e.type_attr "text".data
        let input_type := if e.from_textarea_selector then "textarea".data else input_type0
        let name := pyOr e.name_attr []
        let placeholder := pyOr e.placeholder_attr []
        let position : ℚ × ℚ := (x + w / 2, y + h / 2)
        let element_id := counter
        let res := extract_inputs (counter + 1) rest
        (res.1,
          ⟨element_id, input_type, name, placeholder, position, e.parent_text⟩ :: res.2.1,
          ⟨element_id, input_type, name, placeholder, position, e.parent_text⟩ :: res.2.2)

/-- The constructor call `Link(text=..., url=..., parent_text=...)` at
`page_parser.py` lines 125-129.  The pydantic model in `models/link.py`
declares `position` and `selector` as required fields and the call passes
neither, so validation raises for every element and the surrounding
per-element `except Exception: continue` drops the link: the call never
produces a value. -/
def linkConstructor (text url : Str) (parent_text : Option Str) :
    Option Link :=
  none

/-- `extract_links` (lines 94-134).  Because `linkConstructor` always fails
validation, the result is always `[]`; the element pipeline before the
constructor is kept to mirror the source. -/
def extract_links : List RawLinkElem → List Link
  | [] => []
  | e :: rest =>
    if e.raises ∨ e.visible = false then extract_links rest
    else
      let text := (pyStrip (pyOr e.text_content (pyOr e.aria_label []))).take 100
      match e.href with
      | none => extract_links rest
      | some href =>
        if href = [] then extract_links rest
        else
          let url := if e.resolve_raises then href else e.resolved_url
          match linkConstructor text url e.parent_text with
          | none => extract_links rest
          | some l => l :: extract_links rest

/-! ## Spatial helpers (`page_parser.py` lines 216-268) -/

/-- `_get_max_y_coordinate`: running maximum of the Y components, starting
from `0.0`, buttons first and then inputs. -/
def getMaxY (buttons : List Button) (inputs : List Input) : ℚ :=
  let m1 := buttons.foldl (fun m b => if b.position.2 > m then b.position.2 else m) 0
  inputs.foldl (fun m i => if i.position.2 > m then i.position.2 else m) m1

/-- `_filter_buttons_by_y_range` on the agent-facing list: keep the buttons
with `y_start <= y < y_end`.  (The source filters the internal and external
lists with the same predicate; `parse_page_buttons_items` only uses the
external result.) -/
def filter_buttons_by_y_range (buttons : List Button) (y_start y_end : ℚ) :
    List Button :=
  buttons.filter (fun b => y_start ≤ b.position.2 ∧ b.position.2 < y_end)

/-- `_filter_inputs_by_y_range` on the agent-facing list. -/
def filter_inputs_by_y_range (inputs : List Input) (y_start y_end : ℚ) :
    List Input :=
  inputs.filter (fun i => y_start ≤ i.position.2 ∧ i.position.2 < y_end)

/-! ## Text pagination (`page_parser.py` lines 272-315) -/

/-- The item-building loop at lines 283-291: each chunk becomes a
`PageTextItem` with `item_id = len(items)` so far and the placeholder
`total_items = -1`. -/
def buildTextItems (url title : Str) (startIdx : Nat) :
    List (List Char) → List PageTextItem
  | [] => []
  | ch :: rest =>
    ⟨startIdx, -1, url, title, ch⟩ :: buildTextItems url title (startIdx + 1) rest

/-- `parse_page_text_items`: chunk the visible text, fall back to a single
empty item for an empty page, then back-fill `total_items` on every item. -/
def parse_page_text_items (p : PageModel) (cfg : PaginationConfig) :
    List PageTextItem :=
  let items := buildTextItems p.url p.title 0
    (chunkList p.visible_text cfg.text_chunk_size)
  let items := if items.isEmpty then [⟨0, 1, p.url, p.title, []⟩] else items
  items.map (fun it => { it with total_items := (items.length : Int) })

/-! ## Links pagination (`page_parser.py` lines 393-441) -/

/-- The item-building loop at lines 409-417. -/
def buildLinksItems (url title : Str) (startIdx : Nat) :
    List (List Link) → List PageLinksItem
  | [] => []
  | ch :: rest =>
    ⟨startIdx, -1, url, title, ch⟩ :: buildLinksItems url title (startIdx + 1) rest

/-- The chunking part of `parse_page_links_items` (lines 406-441), as a
function of the value of `all_links = await self.extract_links()`. -/
def links_chunking (all_links : List Link) (chunk_size : Nat)
    (url title : Str) : List PageLinksItem :=
  let items := buildLinksItems url title 0 (chunkList all_links chunk_size)
  let items := if items.isEmpty then [⟨0, 1, url, title, []⟩] else items
  items.map (fun it => { it with total_items := (items.length : Int) })

/-- `parse_page_links_items` (lines 393-441). -/
def parse_page_links_items (p : PageModel) (cfg : PaginationConfig) :
    List PageLinksItem :=
  links_chunking (extract_links p.link_elems) cfg.links_chunk_size p.url p.title

/-! ## Buttons/inputs pagination (`page_parser.py` lines 317-391)

The `while y_start < max_y` loop advances `y_start` by `section_height` each
iteration.  It is modelled with an explicit fuel argument: `bandFuel` is one
more than the number of iterations the loop performs when
`section_height > 0`, so the fuel never cuts the loop short
(`bandsGo_spec` below makes this exact).  For `section_height <= 0` and
`max_y > 0` the source loop would not terminate; every theorem assumes a
positive band height. -/

def bandsGo (be : List Button) (ie : List Input) (url title : Str)
    (h maxY : ℚ) : Nat → ℚ → Nat → List PageButtonsItem
  | 0, _, _ => []
  | fuel + 1, y_start, idx =>
    if y_start < maxY then
      { item_id := idx, total_items := -1, url := url, title := title,
        buttons := filter_buttons_by_y_range be y_start (y_start + h),
        inputs := filter_inputs_by_y_range ie y_start (y_start + h) } ::
      bandsGo be ie url title h maxY fuel (y_start + h) (idx + 1)
    else []

/-- Fuel bound for the band loop starting at `y_start = 0`. -/
def bandFuel (maxY h : ℚ) : Nat := (⌈maxY / h⌉).toNat + 1

/-- `parse_page_buttons_items`: extract buttons then inputs (one shared id
counter starting at 0 because the caller constructs a fresh `PageParser`),
compute `max_y` with the scroll-height fallback when it is `0`, emit one
item per band, fall back to a single empty item, and back-fill
`total_items`. -/
def parse_page_buttons_items (p : PageModel) (cfg : PaginationConfig) :
    List ButtonInternal × List InputInternal × List PageButtonsItem :=
  let rb := extract_buttons 0 p.button_elems
  let ri := extract_inputs rb.1 p.input_elems
  let buttons_internal := rb.2.1
  let buttons_external := rb.2.2
  let inputs_internal := ri.2.1
  let inputs_external := ri.2.2
  let max_y0 := getMaxY buttons_external inputs_external
  let max_y := if max_y0 = 0 then p.scroll_height else max_y0
  let section_height := cfg.parse_item_size
  let items := bandsGo buttons_external inputs_external p.url p.title
    section_height max_y (bandFuel max_y section_height) 0 0
  let items := if items.isEmpty then [⟨0, 1, p.url, p.title, [], []⟩] else items
  (buttons_internal, inputs_internal,
    items.map (fun it => { it with total_items := (items.length : Int) }))

/-! ## Browser manager state (`parser/browser_manager.py`)

`BrowserManager` keeps, per kind, the materialized item list, the cursor
(`_current_*_index`), and the URL at which the list was parsed; plus the two
id-keyed stores of internal elements.  The Python dicts
`{btn.id: btn for btn in buttons_internal}` are modelled as the underlying
lists with lookup by id (`dict.get`), which agrees with the dict because ids
within one materialization are unique (`extract_buttons`/`extract_inputs`
never emit a duplicate id; see `parse_registry_ids_strictMono` below). -/

structure BMState where
  text_items : List PageTextItem
  current_text_index : Nat
  last_text_parsed_url : Option Str
  buttons_items : List PageButtonsItem
  current_buttons_index : Nat
  last_buttons_parsed_url : Option Str
  links_items : List PageLinksItem
  current_links_index : Nat
  last_links_parsed_url : Option Str
  buttons_internal : List ButtonInternal
  inputs_internal : List InputInternal
deriving DecidableEq, Repr

/-- `reset_text_items` (lines 158-162). -/
def reset_text_items (s : BMState) : BMState :=
  { s with text_items := [], current_text_index := 0, last_text_parsed_url := none }

/-- `reset_buttons_items` (lines 193-199): also clears the element stores. -/
def reset_buttons_items (s : BMState) : BMState :=
  { s with buttons_items := [], current_buttons_index := 0,
           last_buttons_parsed_url := none,
           buttons_internal := [], inputs_internal := [] }

/-- `reset_links_items` (lines 232-236). -/
def reset_links_items (s : BMState) : BMState :=
  { s with links_items := [], current_links_index := 0, last_links_parsed_url := none }

/-- `get_button_by_id` (lines 201-203): `self._buttons_internal.get(button_id)`. -/
def get_button_by_id (s : BMState) (button_id : Nat) : Option ButtonInternal :=
  s.buttons_internal.find? (fun b => b.id = button_id)

/-- `get_input_by_id` (lines 205-207). -/
def get_input_by_id (s : BMState) (input_id : Nat) : Option InputInternal :=
  s.inputs_internal.find? (fun i => i.id = input_id)

/-- `get_next_page_text_item` (lines 137-156): re-parse when the URL changed
or the cache is empty, then return the chunk under the cursor and advance,
or `none` when the cursor is past the end. -/
def get_next_page_text_item (p : PageModel) (cfg : PaginationConfig)
    (s : BMState) : Option PageTextItem × BMState :=
  let current_url := p.url
  let s :=
    if s.last_text_parsed_url ≠ some current_url ∨ s.text_items = [] then
      { s with text_items := parse_page_text_items p cfg,
               current_text_index := 0,
               last_text_parsed_url := some current_url }
    else s
  if h : s.current_text_index < s.text_items.length then
    (some (s.text_items.get ⟨s.current_text_index, h⟩),
     { s with current_text_index := s.current_text_index + 1 })
  else
    (none, s)

/-- `get_next_page_buttons_item` (lines 166-191): on re-parse also replaces
the two element stores before any item is returned. -/
def get_next_page_buttons_item (p : PageModel) (cfg : PaginationConfig)
    (s : BMState) : Option PageButtonsItem × BMState :=
  let current_url := p.url
  let s :=
    if s.last_buttons_parsed_url ≠ some current_url ∨ s.buttons_items = [] then
      let parsed := parse_page_buttons_items p cfg
      { s with buttons_internal := parsed.1,
               inputs_internal := parsed.2.1,
               buttons_items := parsed.2.2,
               current_buttons_index := 0,
               last_buttons_parsed_url := some current_url }
    else s
  if h : s.current_buttons_index < s.buttons_items.length then
    (some (s.buttons_items.get ⟨s.current_buttons_index, h⟩),
     { s with current_buttons_index := s.current_buttons_index + 1 })
  else
    (none, s)

/-- `get_next_page_links_item` (lines 211-230). -/
def get_next_page_links_item (p : PageModel) (cfg : PaginationConfig)
    (s : BMState) : Option PageLinksItem × BMState :=
  let current_url := p.url
  let s :=
    if s.last_links_parsed_url ≠ some current_url ∨ s.links_items = [] then
      { s with links_items := parse_page_links_items p cfg,
               current_links_index := 0,
               last_links_parsed_url := some current_url }
    else s
  if h : s.current_links_index < s.links_items.length then
    (some (s.links_items.get ⟨s.current_links_index, h⟩),
     { s with current_links_index := s.current_links_index + 1 })
  else
    (none, s)

/-- `BrowserManager.navigate`/`go_back` (lines 73-115): after the driver
navigation both reset all three item states.  The driver side (the URL
change itself) lives in the `PageModel`, outside `BMState`. -/
def navigate_resets (s : BMState) : BMState :=
  reset_links_items (reset_buttons_items (reset_text_items s))

/-! ## Action tools (`tools/click_button.py`, `tools/type_text.py`,
`tools/press_key.py`) and their wrappers in `agent/tools_config.py`

The domain errors of `exceptions/`: `ElementNotFoundError` carries the
selector text and the timeout in seconds; a Playwright timeout inside the
tool body is converted to `ElementNotFoundError(..., timeout=5)`.  The
driver interaction for a resolved element (visibility wait, scroll, click or
type or fill) is abstracted by a boolean `driver_ok`: `true` means the
Playwright calls complete, `false` means they time out. -/

inductive ToolError where
  | elementNotFound (selector : Str) (timeout : Nat)
  | navigationTimeout (url : Str) (timeout : Nat)
  | browserClosed (operation : Str)
  | unknown
deriving DecidableEq, Repr

/-- `click_button` (`tools/click_button.py` lines 25-65): an id that does not
resolve raises `ElementNotFoundError(f"button_id={button_id}", timeout=0)`
before any driver call; a driver timeout on a resolved element raises
`ElementNotFoundError(..., timeout=5)`. -/
def click_button (driver_ok : Bool) (s : BMState) (button_id : Nat) :
    Except ToolError ButtonInternal :=
  match get_button_by_id s button_id with
  | none => .error (.elementNotFound ("button_id=".data ++ (toString button_id).data) 0)
  | some button_internal =>
    if driver_ok then .ok button_internal
    else .error (.elementNotFound ("button_id=".data ++ (toString button_id).data) 5)

/-- `type_text` (`tools/type_text.py` lines 14-62). -/
def type_text (driver_ok : Bool) (s : BMState) (input_id : Nat) :
    Except ToolError InputInternal :=
  match get_input_by_id s input_id with
  | none => .error (.elementNotFound ("input_id=".data ++ (toString input_id).data) 0)
  | some input_internal =>
    if driver_ok then .ok input_internal
    else .error (.elementNotFound ("input_id=".data ++ (toString input_id).data) 5)

/-- `fill_input` (`tools/type_text.py` lines 65-110): same addressing and
error behaviour as `type_text`. -/
def fill_input (driver_ok : Bool) (s : BMState) (input_id : Nat) :
    Except ToolError InputInternal :=
  match get_input_by_id s input_id with
  | none => .error (.elementNotFound ("input_id=".data ++ (toString input_id).data) 0)
  | some input_internal =>
    if driver_ok then .ok input_internal
    else .error (.elementNotFound ("input_id=".data ++ (toString input_id).data) 5)

/-- The `_click` wrapper (`tools_config.py` lines 49-52): it calls
`click_button` and returns its message.  Unlike `_type`, `_fill` and
`_press_key` it performs no cache reset after the click. -/
def tool_click (driver_ok : Bool) (s : BMState) (button_id : Nat) :
    Except ToolError Unit × BMState :=
  match click_button driver_ok s button_id with
  | .error e => (.error e, s)
  | .ok _ => (.ok (), s)

/-- The `_type` wrapper (`tools_config.py` lines 54-60): on success it resets
all three page item states; when `type_text` raises, the exception
propagates and no reset runs. -/
def tool_type (driver_ok : Bool) (s : BMState) (input_id : Nat) :
    Except ToolError Unit × BMState :=
  match type_text driver_ok s input_id with
  | .error e => (.error e, s)
  | .ok _ => (.ok (), reset_links_items (reset_buttons_items (reset_text_items s)))

/-- The `_fill` wrapper (`tools_config.py` lines 62-68). -/
def tool_fill (driver_ok : Bool) (s : BMState) (input_id : Nat) :
    Except ToolError Unit × BMState :=
  match fill_input driver_ok s input_id with
  | .error e => (.error e, s)
  | .ok _ => (.ok (), reset_links_items (reset_buttons_items (reset_text_items s)))

/-- `KEY_MAPPING` lookup in `tools/press_key.py` lines 14-33 applied to the
lower-cased key, falling back to the key itself. -/
def normalize_key (key : Str) : Str :=
  let k := key.map Char.toLower
  if k = "enter".data then "Enter".data
  else if k = "tab".data then "Tab".data
  else if k = "escape".data then "Escape".data
  else if k = "esc".data then "Escape".data
  else if k = "backspace".data then "Backspace".data
  else if k = "delete".data then "Delete".data
  else if k = "arrowup".data then "ArrowUp".data
  else if k = "arrowdown".data then "ArrowDown".data
  else if k = "arrowleft".data then "ArrowLeft".data
  else if k = "arrowright".data then "ArrowRight".data
  else if k = "up".data then "ArrowUp".data
  else if k = "down".data then "ArrowDown".data
  else if k = "left".data then "ArrowLeft".data
  else if k = "right".data then "ArrowRight".data
  else if k = "space".data then " ".data
  else if k = "home".data then "Home".data
  else if k = "end".data then "End".data
  else if k = "pageup".data then "PageUp".data
  else if k = "pagedown".data then "PageDown".data
  else key

/-- The `_press_key` wrapper (`tools_config.py` lines 70-76): `press_key`
itself has no addressing failure path (the network-settle timeout inside it
is swallowed), and the wrapper then resets all three page item states. -/
def tool_press_key (s : BMState) (key : Str) : Str × BMState :=
  (normalize_key key,
   reset_links_items (reset_buttons_items (reset_text_items s)))

/-- The `_navigate` wrapper (`tools_config.py` lines 40-46) together with
`BrowserManager.navigate`: the driver navigates, then all three item states
are reset. -/
def tool_navigate (s : BMState) : BMState :=
  navigate_resets s

/-- The `_go_back` wrapper (`tools_config.py` lines 104-107) together with
`BrowserManager.go_back`. -/
def tool_go_back (s : BMState) : BMState :=
  navigate_resets s

/-! ## Iterating the next-item cursor -/

/-- Call a pagination step `n` times from a state, collecting the outputs in
order.  Used to state the cursor-exhaustion property. -/
def iterateNext {α : Type} (step : BMState → Option α × BMState) :
    Nat → BMState → List (Option α) × BMState
  | 0, s => ([], s)
  | n + 1, s =>
    let r := step s
    let rest := iterateNext step n r.2
    (r.1 :: rest.1, rest.2)

/-! ## The decision/act loop (`cli/interface.py` lines 141-310)

`process_message` runs `while retry_count <= MAX_RETRIES`: each attempt
iterates `agent_graph.astream`, counting `step_count` per event and breaking
once `step_count > config.agent_max_steps`; a `ToolExecutionError` increments
`retry_count` and retries, `retry_count > MAX_RETRIES` is a terminal failure,
other exceptions and normal completion end the loop.  The event source (the
LLM stream) is external: attempt `k` is modelled as a function
`Nat → Option StreamStep`, where `none` means the stream ended (the graph
completed) and `some` an event whose processing either succeeds or raises. -/

inductive StreamStep where
  | normal
  | toolError
  | fatalError
deriving DecidableEq, Repr

inductive AttemptOutcome where
  | completed
  | stepLimit
  | toolError
  | fatalError
deriving DecidableEq, Repr

/-- One attempt: process events from index `i` with
`remaining = max_steps - i` more events allowed after the current one; the
`remaining = 0` branch is the `step_count > config.agent_max_steps` break.
Returns the outcome and the number of events processed. -/
def attemptGo (ev : Nat → Option StreamStep) : Nat → Nat → AttemptOutcome × Nat
  | remaining, i =>
    match ev i with
    | none => (.completed, i)
    | some .toolError => (.toolError, i + 1)
    | some .fatalError => (.fatalError, i + 1)
    | some .normal =>
      match remaining with
      | 0 => (.stepLimit, i + 1)
      | r + 1 => attemptGo ev r (i + 1)

/-- One full `astream` pass with step counting from zero. -/
def runAttempt (ev : Nat → Option StreamStep) (max_steps : Nat) :
    AttemptOutcome × Nat :=
  attemptGo ev max_steps 0

inductive TaskStatus where
  | succeeded
  | failedRetries
  | failedFatal
deriving DecidableEq, Repr

/-- The retry loop: `attempts_left = maxRetries + 1 - retry_count` counts the
remaining admissible attempts; reaching `0` is the
`retry_count > MAX_RETRIES` terminal-failure branch.  Returns the final
status and the number of attempts executed. -/
def taskGo (att : Nat → Nat → Option StreamStep) (max_steps : Nat) :
    Nat → Nat → TaskStatus × Nat
  | 0, k => (.failedRetries, k)
  | attempts_left + 1, k =>
    match (runAttempt (att k) max_steps).1 with
    | .completed => (.succeeded, k + 1)
    | .stepLimit => (.succeeded, k + 1)
    | .fatalError => (.failedFatal, k + 1)
    | .toolError => taskGo att max_steps attempts_left (k + 1)

/-- `process_message` for one user message: up to `max_retries` retries after
the first attempt. -/
def runTask (att : Nat → Nat → Option StreamStep)
    (max_retries max_steps : Nat) : TaskStatus × Nat :=
  taskGo att max_steps (max_retries + 1) 0

/-! ## Properties of the item builders -/

theorem buildTextItems_length (url title : Str) (i : Nat)
    (chunks : List (List Char)) :
    (buildTextItems url title i chunks).length = chunks.length := by
  induction chunks generalizing i with
  | nil => rfl
  | cons ch rest ih => simp [buildTextItems, ih]

theorem buildTextItems_map_item_id (url title : Str) (i : Nat)
    (chunks : List (List Char)) :
    (buildTextItems url title i chunks).map PageTextItem.item_id =
      List.range' i chunks.length := by
  induction chunks generalizing i with
  | nil => rfl
  | cons ch rest ih =>
    simp [buildTextItems, List.range'_succ, ih]

theorem buildTextItems_map_text_chunk (url title : Str) (i : Nat)
    (chunks : List (List Char)) :
    (buildTextItems url title i chunks).map PageTextItem.text_chunk = chunks := by
  induction chunks generalizing i with
  | nil => rfl
  | cons ch rest ih => simp [buildTextItems, ih]

theorem buildLinksItems_length (url title : Str) (i : Nat)
    (chunks : List (List Link)) :
    (buildLinksItems url title i chunks).length = chunks.length := by
  induction chunks generalizing i with
  | nil => rfl
  | cons ch rest ih => simp [buildLinksItems, ih]

theorem buildLinksItems_map_links (url title : Str) (i : Nat)
    (chunks : List (List Link)) :
    (buildLinksItems url title i chunks).map PageLinksItem.links = chunks := by
  induction chunks generalizing i with
  | nil => rfl
  | cons ch rest ih => simp [buildLinksItems, ih]

/-- C3: For every page text of length `L` and text chunk size `C > 0`,
`parse_page_text_items` produces exactly `max 1 ⌈L/C⌉` chunks, their
`item_id`s are `0..n-1` in order, concatenating the payloads in id order
restores the text, every chunk's `total_items` is the final chunk count, and
an empty text gives exactly the one chunk with empty payload and
`total_items = 1`. -/
theorem text_chunking_law (p : PageModel) (cfg : PaginationConfig)
    (hc : 0 < cfg.text_chunk_size) :
    (parse_page_text_items p cfg).length =
      max 1 ((p.visible_text.length + cfg.text_chunk_size - 1) / cfg.text_chunk_size) ∧
    (parse_page_text_items p cfg).map PageTextItem.item_id =
      List.range (parse_page_text_items p cfg).length ∧
    ((parse_page_text_items p cfg).map PageTextItem.text_chunk).flatten =
      p.visible_text ∧
    (∀ it ∈ parse_page_text_items p cfg,
      it.total_items = ((parse_page_text_items p cfg).length : Int)) ∧
    (p.visible_text = [] →
      parse_page_text_items p cfg = [⟨0, 1, p.url, p.title, []⟩]) := by
  rcases eq_or_ne p.visible_text [] with he | hne
  · have hitems : parse_page_text_items p cfg = [⟨0, 1, p.url, p.title, []⟩] := by
      simp [parse_page_text_items, he, chunkList_nil, buildTextItems]
    refine ⟨?_, ?_, ?_, ?_, fun _ => hitems⟩
    · rw [hitems, he]
      have h0 : (cfg.text_chunk_size - 1) / cfg.text_chunk_size = 0 :=
        Nat.div_eq_of_lt (by omega)
      simp [h0]
    · rw [hitems]
      rfl
    · rw [hitems, he]
      rfl
    · rw [hitems]
      intro it hit
      simp at hit
      subst hit
      rfl
  · -- non-empty text: no fallback, the built list is mapped with the total
    have hchne : chunkList p.visible_text cfg.text_chunk_size ≠ [] := by
      rw [chunkList_cons _ _ hne (Nat.pos_iff_ne_zero.mp hc)]
      exact List.cons_ne_nil _ _
    have hbne : buildTextItems p.url p.title 0
        (chunkList p.visible_text cfg.text_chunk_size) ≠ [] := by
      intro h
      have := congrArg List.length h
      rw [buildTextItems_length] at this
      exact hchne (List.eq_nil_of_length_eq_zero this)
    have hitems : parse_page_text_items p cfg =
        (buildTextItems p.url p.title 0
          (chunkList p.visible_text cfg.text_chunk_size)).map
          (fun it => { it with total_items :=
            ((buildTextItems p.url p.title 0
              (chunkList p.visible_text cfg.text_chunk_size)).length : Int) }) := by
      rw [parse_page_text_items]
      simp only [List.isEmpty_iff, if_neg hbne]
    have hlen : (parse_page_text_items p cfg).length =
        (chunkList p.visible_text cfg.text_chunk_size).length := by
      rw [hitems, List.length_map, buildTextItems_length]
    have hlenval : (parse_page_text_items p cfg).length =
        (p.visible_text.length + cfg.text_chunk_size - 1) / cfg.text_chunk_size := by
      rw [hlen, chunkList_length _ _ hc]
    refine ⟨?_, ?_, ?_, ?_, fun h => absurd h hne⟩
    · rw [hlenval]
      have hLpos : 0 < p.visible_text.length := List.length_pos.mpr hne
      have h1 : 1 ≤ (p.visible_text.length + cfg.text_chunk_size - 1) /
          cfg.text_chunk_size := by
        rw [Nat.le_div_iff_mul_le hc]
        omega
      omega
    · rw [hitems]
      have hmap : ((buildTextItems p.url p.title 0
          (chunkList p.visible_text cfg.text_chunk_size)).map
          (fun it : PageTextItem => { it with total_items :=
            ((buildTextItems p.url p.title 0
              (chunkList p.visible_text cfg.text_chunk_size)).length : Int) })).map
            PageTextItem.item_id =
          (buildTextItems p.url p.title 0
            (chunkList p.visible_text cfg.text_chunk_size)).map
            PageTextItem.item_id := by
        rw [List.map_map]
        rfl
      rw [hmap, buildTextItems_map_item_id, List.length_map,
        buildTextItems_length, List.range_eq_range']
    · rw [hitems]
      have hmap : ((buildTextItems p.url p.title 0
          (chunkList p.visible_text cfg.text_chunk_size)).map
          (fun it : PageTextItem => { it with total_items :=
            ((buildTextItems p.url p.title 0
              (chunkList p.visible_text cfg.text_chunk_size)).length : Int) })).map
            PageTextItem.text_chunk =
          (buildTextItems p.url p.title 0
            (chunkList p.visible_text cfg.text_chunk_size)).map
            PageTextItem.text_chunk := by
        rw [List.map_map]
        rfl
      rw [hmap, buildTextItems_map_text_chunk, chunkList_flatten _ _ hc]
    · rw [hitems]
      intro it hit
      rw [List.mem_map] at hit
      obtain ⟨it0, _, rfl⟩ := hit
      simp [hitems]

/-- C3 witness: the chunking law applied to a concrete page: 11 characters with chunk
size 5. -/
theorem text_chunking_law_witness :
    0 < (5 : Nat) ∧
    ((parse_page_text_items
        ⟨"u".data, "t".data, "hello world".data, [], [], [], 900⟩
        ⟨5, 1000, 20⟩).length =
      max 1 (("hello world".data.length + 5 - 1) / 5) ∧
    (parse_page_text_items
        ⟨"u".data, "t".data, "hello world".data, [], [], [], 900⟩
        ⟨5, 1000, 20⟩).map PageTextItem.item_id =
      List.range (parse_page_text_items
        ⟨"u".data, "t".data, "hello world".data, [], [], [], 900⟩
        ⟨5, 1000, 20⟩).length ∧
    ((parse_page_text_items
        ⟨"u".data, "t".data, "hello world".data, [], [], [], 900⟩
        ⟨5, 1000, 20⟩).map PageTextItem.text_chunk).flatten =
      "hello world".data ∧
    (∀ it ∈ parse_page_text_items
        ⟨"u".data, "t".data, "hello world".data, [], [], [], 900⟩
        ⟨5, 1000, 20⟩,
      it.total_items = ((parse_page_text_items
        ⟨"u".data, "t".data, "hello world".data, [], [], [], 900⟩
        ⟨5, 1000, 20⟩).length : Int)) ∧
    ("hello world".data = [] →
      parse_page_text_items
        ⟨"u".data, "t".data, "hello world".data, [], [], [], 900⟩
        ⟨5, 1000, 20⟩ = [⟨0, 1, "u".data, "t".data, []⟩])) :=
  ⟨by decide,
   text_chunking_law ⟨"u".data, "t".data, "hello world".data, [], [], [], 900⟩
     ⟨5, 1000, 20⟩ (by decide)⟩

/-- C6: For every extracted link list of length `L` and links chunk size
`C > 0`, the chunking step of `parse_page_links_items` produces exactly
`max 1 ⌈L/C⌉` chunks; the last chunk has `L mod C` links, or `C` when `L` is
a nonzero multiple of `C`; and zero links give exactly one chunk with an
empty list and `total_items = 1`. -/
theorem links_chunking_law (all_links : List Link) (c : Nat) (url title : Str)
    (hc : 0 < c) :
    (links_chunking all_links c url title).length =
      max 1 ((all_links.length + c - 1) / c) ∧
    (∃ t, (links_chunking all_links c url title).getLast? = some t ∧
      t.links.length =
        (if all_links.length % c = 0 ∧ all_links ≠ [] then c
         else all_links.length % c)) ∧
    (all_links = [] →
      links_chunking all_links c url title = [⟨0, 1, url, title, []⟩]) := by
  rcases eq_or_ne all_links [] with he | hne
  · have hitems : links_chunking all_links c url title = [⟨0, 1, url, title, []⟩] := by
      simp [links_chunking, he, chunkList_nil, buildLinksItems]
    refine ⟨?_, ?_, fun _ => hitems⟩
    · rw [hitems, he]
      have h0 : (c - 1) / c = 0 := Nat.div_eq_of_lt (by omega)
      simp [h0]
    · refine ⟨⟨0, 1, url, title, []⟩, ?_, ?_⟩
      · rw [hitems]
        rfl
      · simp [he]
  · have hchne : chunkList all_links c ≠ [] := by
      rw [chunkList_cons _ _ hne (Nat.pos_iff_ne_zero.mp hc)]
      exact List.cons_ne_nil _ _
    have hbne : buildLinksItems url title 0 (chunkList all_links c) ≠ [] := by
      intro h
      have := congrArg List.length h
      rw [buildLinksItems_length] at this
      exact hchne (List.eq_nil_of_length_eq_zero this)
    have hitems : links_chunking all_links c url title =
        (buildLinksItems url title 0 (chunkList all_links c)).map
          (fun it => { it with total_items :=
            ((buildLinksItems url title 0 (chunkList all_links c)).length : Int) }) := by
      rw [links_chunking]
      simp only [List.isEmpty_iff, if_neg hbne]
    refine ⟨?_, ?_, fun h => absurd h hne⟩
    · rw [hitems, List.length_map, buildLinksItems_length, chunkList_length _ _ hc]
      have hLpos : 0 < all_links.length := List.length_pos.mpr hne
      have h1 : 1 ≤ (all_links.length + c - 1) / c := by
        rw [Nat.le_div_iff_mul_le hc]
        omega
      omega
    · -- the last chunk of the built items is the last chunk of `chunkList`
      obtain ⟨t, ht, htl⟩ := chunkList_getLast_length all_links c hc hne
      have hmap : (links_chunking all_links c url title).map PageLinksItem.links =
          chunkList all_links c := by
        rw [hitems, List.map_map]
        have : (PageLinksItem.links ∘ fun it : PageLinksItem =>
            { it with total_items :=
              ((buildLinksItems url title 0 (chunkList all_links c)).length : Int) }) =
            PageLinksItem.links := rfl
        rw [this, buildLinksItems_map_links]
      have hlast : ((links_chunking all_links c url title).map
          PageLinksItem.links).getLast? = some t := by
        rw [hmap, ht]
      rw [List.getLast?_map] at hlast
      obtain ⟨it, hit, hlinks⟩ := Option.map_eq_some'.mp hlast
      refine ⟨it, hit, ?_⟩
      rw [hlinks, htl]
      rcases Nat.eq_zero_or_pos (all_links.length % c) with h0 | hpos
      · simp [h0, hne]
      · simp [Nat.pos_iff_ne_zero.mp hpos]

/-- C6 witness: 45 identical links with chunk size 20 (three chunks, the
last of length 5). -/
theorem links_chunking_law_witness :
    0 < (20 : Nat) ∧
    ((links_chunking (List.replicate 45 ⟨"a".data, (0, 0), "u".data, none, "s".data⟩)
        20 "u".data "t".data).length =
      max 1 (((List.replicate 45
        (⟨"a".data, (0, 0), "u".data, none, "s".data⟩ : Link)).length + 20 - 1) / 20) ∧
    (∃ t, (links_chunking (List.replicate 45 ⟨"a".data, (0, 0), "u".data, none, "s".data⟩)
        20 "u".data "t".data).getLast? = some t ∧
      t.links.length =
        (if (List.replicate 45
              (⟨"a".data, (0, 0), "u".data, none, "s".data⟩ : Link)).length % 20 = 0 ∧
            List.replicate 45 (⟨"a".data, (0, 0), "u".data, none, "s".data⟩ : Link) ≠ [] then 20
         else (List.replicate 45
            (⟨"a".data, (0, 0), "u".data, none, "s".data⟩ : Link)).length % 20)) ∧
    (List.replicate 45 (⟨"a".data, (0, 0), "u".data, none, "s".data⟩ : Link) = [] →
      links_chunking (List.replicate 45 ⟨"a".data, (0, 0), "u".data, none, "s".data⟩)
        20 "u".data "t".data = [⟨0, 1, "u".data, "t".data, []⟩])) :=
  ⟨by decide,
   links_chunking_law (List.replicate 45 ⟨"a".data, (0, 0), "u".data, none, "s".data⟩)
     20 "u".data "t".data (by decide)⟩

/-! ## Characterizing the band loop -/

/-- The agent-facing buttons produced by a fresh materialization (the
counter starts at 0 because `get_next_page_buttons_item` constructs a new
`PageParser`). -/
def buttonsExternal (p : PageModel) : List Button :=
  (extract_buttons 0 p.button_elems).2.2

/-- The agent-facing inputs of a fresh materialization; the id counter
continues from where button extraction left it. -/
def inputsExternal (p : PageModel) : List Input :=
  (extract_inputs (extract_buttons 0 p.button_elems).1 p.input_elems).2.2

/-- The `max_y` value after the scroll-height fallback. -/
def effMaxY (p : PageModel) : ℚ :=
  if getMaxY (buttonsExternal p) (inputsExternal p) = 0 then p.scroll_height
  else getMaxY (buttonsExternal p) (inputsExternal p)

/-- The number of iterations of the `while y_start < max_y` loop. -/
def numBands (p : PageModel) (cfg : PaginationConfig) : Nat :=
  (⌈effMaxY p / cfg.parse_item_size⌉).toNat

/-- With enough fuel, the band loop starting at `y_start` emits one item per
band `[y_start + j*h, y_start + (j+1)*h)`, for `j` up to
`⌈(maxY - y_start)/h⌉`. -/
theorem bandsGo_spec (be : List Button) (ie : List Input) (u t : Str)
    (h maxY : ℚ) (hh : 0 < h) :
    ∀ fuel (y : ℚ) (idx : Nat),
    (⌈(maxY - y) / h⌉).toNat ≤ fuel →
    bandsGo be ie u t h maxY fuel y idx =
      (List.range ((⌈(maxY - y) / h⌉).toNat)).map (fun j =>
        { item_id := idx + j, total_items := -1, url := u, title := t,
          buttons := filter_buttons_by_y_range be (y + j * h) (y + j * h + h),
          inputs := filter_inputs_by_y_range ie (y + j * h) (y + j * h + h) }) := by
  intro fuel
  induction fuel with
  | zero =>
    intro y idx hf
    have h0 : (⌈(maxY - y) / h⌉).toNat = 0 := Nat.le_zero.mp hf
    rw [h0]
    simp [bandsGo]
  | succ fuel ih =>
    intro y idx hf
    by_cases hy : y < maxY
    · have hpos : 0 < (maxY - y) / h := div_pos (by linarith) hh
      have hceil : 0 < ⌈(maxY - y) / h⌉ := Int.ceil_pos.mpr hpos
      have hstep : ⌈(maxY - (y + h)) / h⌉ = ⌈(maxY - y) / h⌉ - 1 := by
        rw [show maxY - (y + h) = maxY - y - h by ring, sub_div,
          div_self (ne_of_gt hh), Int.ceil_sub_one]
      have hn : (⌈(maxY - y) / h⌉).toNat =
          (⌈(maxY - (y + h)) / h⌉).toNat + 1 := by
        rw [hstep]; omega
      rw [bandsGo, if_pos hy, ih (y + h) (idx + 1) (by omega), hn,
        List.range_succ_eq_map, List.map_cons, List.map_map]
      congr 1
      · push_cast
        ring_nf
      · apply List.map_congr_left
        intro j hj
        simp only [Function.comp_apply, Nat.succ_eq_add_one]
        have e1 : idx + 1 + j = idx + (j + 1) := by omega
        have e2 : ((j + 1 : ℕ) : ℚ) = (j : ℚ) + 1 := by push_cast; ring
        have e3 : y + h + (j : ℚ) * h = y + ((j : ℚ) + 1) * h := by ring
        rw [e1, e2, e3]
    · have h1 : maxY - y ≤ 0 := by
        have := not_lt.mp hy
        linarith
      have h2 : (maxY - y) / h ≤ 0 := by
        rw [div_nonpos_iff]
        right
        exact ⟨h1, hh.le⟩
      have h3 : (⌈(maxY - y) / h⌉).toNat = 0 := by
        have hle0 : ⌈(maxY - y) / h⌉ ≤ 0 := Int.ceil_le.mpr (by exact_mod_cast h2)
        omega
      rw [bandsGo, if_neg hy, h3]
      rfl

/-- The item list of `parse_page_buttons_items`: either the single empty
fallback item (when the loop runs zero times) or one item per band
`[j*h, (j+1)*h)` with back-filled totals. -/
theorem parse_buttons_spec (p : PageModel) (cfg : PaginationConfig)
    (hh : 0 < cfg.parse_item_size) :
    (parse_page_buttons_items p cfg).2.2 =
      if numBands p cfg = 0 then [⟨0, 1, p.url, p.title, [], []⟩]
      else (List.range (numBands p cfg)).map (fun j =>
        { item_id := j, total_items := (numBands p cfg : Int),
          url := p.url, title := p.title,
          buttons := filter_buttons_by_y_range (buttonsExternal p)
            (j * cfg.parse_item_size) (j * cfg.parse_item_size + cfg.parse_item_size),
          inputs := filter_inputs_by_y_range (inputsExternal p)
            (j * cfg.parse_item_size) (j * cfg.parse_item_size + cfg.parse_item_size) }) := by
  have hfuel : (⌈(effMaxY p - 0) / cfg.parse_item_size⌉).toNat ≤
      bandFuel (effMaxY p) cfg.parse_item_size := by
    rw [sub_zero, bandFuel]
    omega
  have hloop := bandsGo_spec (buttonsExternal p) (inputsExternal p) p.url p.title
    cfg.parse_item_size (effMaxY p) hh (bandFuel (effMaxY p) cfg.parse_item_size)
    0 0 hfuel
  rw [sub_zero] at hloop
  have hcount : (⌈effMaxY p / cfg.parse_item_size⌉).toNat = numBands p cfg := rfl
  rw [hcount] at hloop
  have hunfold : (parse_page_buttons_items p cfg).2.2 =
      (let items := bandsGo (buttonsExternal p) (inputsExternal p) p.url p.title
        cfg.parse_item_size (effMaxY p)
        (bandFuel (effMaxY p) cfg.parse_item_size) 0 0
      let items := if items.isEmpty then [⟨0, 1, p.url, p.title, [], []⟩] else items
      items.map (fun it => { it with total_items := (items.length : Int) })) := by
    rw [parse_page_buttons_items]
    rfl
  rw [hunfold, hloop]
  rcases Nat.eq_zero_or_pos (numBands p cfg) with h0 | hpos
  · rw [h0]
    simp
  · rw [if_neg (Nat.pos_iff_ne_zero.mp hpos)]
    have hrne : List.range (numBands p cfg) ≠ [] := by
      intro hcon
      have := congrArg List.length hcon
      simp at this
      omega
    simp only [List.isEmpty_iff, List.map_eq_nil_iff, if_neg hrne,
      List.map_map, List.length_map, List.length_range]
    apply List.map_congr_left
    intro j hj
    simp only [Function.comp_apply]
    congr 1 <;> simp

/-! ## Facts about `getMaxY` and skipped elements -/

theorem foldl_runmax_init_le {α : Type} (key : α → ℚ) :
    ∀ (l : List α) (m : ℚ),
    m ≤ l.foldl (fun acc x => if key x > acc then key x else acc) m := by
  intro l
  induction l with
  | nil => intro m; exact le_refl m
  | cons a rest ih =>
    intro m
    refine le_trans ?_ (ih (if key a > m then key a else m))
    by_cases hk : key a > m
    · rw [if_pos hk]; linarith
    · rw [if_neg hk]

theorem foldl_runmax_mem_le {α : Type} (key : α → ℚ) :
    ∀ (l : List α) (m : ℚ) (x : α), x ∈ l →
    key x ≤ l.foldl (fun acc x => if key x > acc then key x else acc) m := by
  intro l
  induction l with
  | nil => intro m x hx; exact absurd hx (List.not_mem_nil x)
  | cons a rest ih =>
    intro m x hx
    rcases List.mem_cons.mp hx with rfl | hx'
    · refine le_trans ?_ (foldl_runmax_init_le key rest (if key x > m then key x else m))
      by_cases hk : key x > m
      · rw [if_pos hk]
      · rw [if_neg hk]; linarith [not_lt.mp hk]
    · exact ih _ x hx'

theorem getMaxY_nonneg (bs : List Button) (is : List Input) :
    0 ≤ getMaxY bs is := by
  rw [getMaxY]
  exact le_trans (foldl_runmax_init_le (fun b : Button => b.position.2) bs 0)
    (foldl_runmax_init_le (fun i : Input => i.position.2) is _)

theorem getMaxY_ge_button (bs : List Button) (is : List Input)
    (b : Button) (hb : b ∈ bs) : b.position.2 ≤ getMaxY bs is := by
  rw [getMaxY]
  exact le_trans (foldl_runmax_mem_le (fun b : Button => b.position.2) bs 0 b hb)
    (foldl_runmax_init_le (fun i : Input => i.position.2) is _)

theorem getMaxY_ge_input (bs : List Button) (is : List Input)
    (i : Input) (hi : i ∈ is) : i.position.2 ≤ getMaxY bs is := by
  rw [getMaxY]
  exact foldl_runmax_mem_le (fun i : Input => i.position.2) is _ i hi

/-- An element that raises, is invisible, or has no bounding box is skipped
and consumes no id; if every element is skipped, button extraction returns
the untouched counter and empty lists. -/
theorem extract_buttons_all_skipped (c : Nat) (elems : List RawButtonElem)
    (hall : ∀ e ∈ elems, e.raises = true ∨ e.visible = false ∨ e.box = none) :
    extract_buttons c elems = (c, [], []) := by
  induction elems with
  | nil => rfl
  | cons e rest ih =>
    have he := hall e (List.mem_cons_self e rest)
    have hrest := fun x hx => hall x (List.mem_cons_of_mem e hx)
    rcases he with hr | hv | hb
    · rw [extract_buttons, if_pos (Or.inl hr)]
      exact ih hrest
    · rw [extract_buttons, if_pos (Or.inr hv)]
      exact ih hrest
    · rw [extract_buttons]
      by_cases hg : e.raises = true ∨ e.visible = false
      · rw [if_pos hg]
        exact ih hrest
      · rw [if_neg hg, hb]
        exact ih hrest

/-- Input-extraction analogue of `extract_buttons_all_skipped`. -/
theorem extract_inputs_all_skipped (c : Nat) (elems : List RawInputElem)
    (hall : ∀ e ∈ elems, e.raises = true ∨ e.visible = false ∨ e.box = none) :
    extract_inputs c elems = (c, [], []) := by
  induction elems with
  | nil => rfl
  | cons e rest ih =>
    have he := hall e (List.mem_cons_self e rest)
    have hrest := fun x hx => hall x (List.mem_cons_of_mem e hx)
    rcases he with hr | hv | hb
    · rw [extract_inputs, if_pos (Or.inl hr)]
      exact ih hrest
    · rw [extract_inputs, if_pos (Or.inr hv)]
      exact ih hrest
    · rw [extract_inputs]
      by_cases hg : e.raises = true ∨ e.visible = false
      · rw [if_pos hg]
        exact ih hrest
      · rw [if_neg hg, hb]
        exact ih hrest

/-- C10: On a page where every button/input element is skipped (raises, not
visible, or no bounding box) the materialization falls back to the scrollable
height `S`: for `S > 0` it produces exactly `⌈S / band_height⌉` chunks, all
with empty button and input lists, and the single-empty-chunk fallback
(`total_items = 1`) occurs exactly when `S ≤ 0`. -/
theorem empty_extraction_band_count (p : PageModel) (cfg : PaginationConfig)
    (hh : 0 < cfg.parse_item_size)
    (hbe : ∀ e ∈ p.button_elems, e.raises = true ∨ e.visible = false ∨ e.box = none)
    (hie : ∀ e ∈ p.input_elems, e.raises = true ∨ e.visible = false ∨ e.box = none) :
    (0 < p.scroll_height →
      (parse_page_buttons_items p cfg).2.2.length =
        (⌈p.scroll_height / cfg.parse_item_size⌉).toNat ∧
      (⌈p.scroll_height / cfg.parse_item_size⌉).toNat ≠ 0 ∧
      ∀ item ∈ (parse_page_buttons_items p cfg).2.2,
        item.buttons = [] ∧ item.inputs = []) ∧
    (p.scroll_height ≤ 0 →
      (parse_page_buttons_items p cfg).2.2 = [⟨0, 1, p.url, p.title, [], []⟩]) := by
  have hb0 : buttonsExternal p = [] := by
    rw [buttonsExternal, extract_buttons_all_skipped 0 p.button_elems hbe]
  have hi0 : inputsExternal p = [] := by
    rw [inputsExternal, extract_inputs_all_skipped _ p.input_elems hie]
  have hmax : effMaxY p = p.scroll_height := by
    rw [effMaxY, hb0, hi0]
    rw [if_pos (show getMaxY ([] : List Button) ([] : List Input) = 0 from rfl)]
  have hspec := parse_buttons_spec p cfg hh
  constructor
  · intro hS
    have hceil : 0 < ⌈p.scroll_height / cfg.parse_item_size⌉ :=
      Int.ceil_pos.mpr (div_pos hS hh)
    have hn : numBands p cfg = (⌈p.scroll_height / cfg.parse_item_size⌉).toNat := by
      rw [numBands, hmax]
    have hn0 : numBands p cfg ≠ 0 := by
      rw [hn]; omega
    rw [hspec, if_neg hn0]
    refine ⟨by rw [List.length_map, List.length_range, hn], by omega, ?_⟩
    intro item hitem
    rw [List.mem_map] at hitem
    obtain ⟨j, _, rfl⟩ := hitem
    constructor
    · rw [hb0]; rfl
    · rw [hi0]; rfl
  · intro hS
    have hceil : ⌈p.scroll_height / cfg.parse_item_size⌉ ≤ 0 := by
      apply Int.ceil_le.mpr
      push_cast
      exact div_nonpos_of_nonpos_of_nonneg hS hh.le
    have hn0 : numBands p cfg = 0 := by
      rw [numBands, hmax]; omega
    rw [hspec, if_pos hn0]

/-- A page whose only button element is invisible, with scroll height 2500:
used as concrete input for the spatial-chunking fallback. -/
def invisible_button_page : PageModel :=
  { url := "u".data, title := "t".data, visible_text := [],
    button_elems :=
      [⟨false, none, none, none, none, false⟩],
    input_elems := [], link_elems := [], scroll_height := 2500 }

/-- The pagination sizes used by the concrete examples: text chunks of 700,
bands of 1000 pixels, link chunks of 20. -/
def sample_cfg : PaginationConfig := { text_chunk_size := 700, parse_item_size := 1000, links_chunk_size := 20 }

/-- C10 witness: on `invisible_button_page` (scroll height 2500, band height
1000) the fallback applies with three chunks, all empty. -/
theorem empty_extraction_band_count_witness :
    (0 < sample_cfg.parse_item_size ∧
      (∀ e ∈ invisible_button_page.button_elems,
        e.raises = true ∨ e.visible = false ∨ e.box = none) ∧
      (∀ e ∈ invisible_button_page.input_elems,
        e.raises = true ∨ e.visible = false ∨ e.box = none)) ∧
    ((0 < invisible_button_page.scroll_height →
      (parse_page_buttons_items invisible_button_page sample_cfg).2.2.length =
        (⌈invisible_button_page.scroll_height / sample_cfg.parse_item_size⌉).toNat ∧
      (⌈invisible_button_page.scroll_height / sample_cfg.parse_item_size⌉).toNat ≠ 0 ∧
      ∀ item ∈ (parse_page_buttons_items invisible_button_page sample_cfg).2.2,
        item.buttons = [] ∧ item.inputs = []) ∧
    (invisible_button_page.scroll_height ≤ 0 →
      (parse_page_buttons_items invisible_button_page sample_cfg).2.2 =
        [⟨0, 1, invisible_button_page.url, invisible_button_page.title, [], []⟩])) :=
  ⟨⟨by norm_num [sample_cfg], by decide, by decide⟩,
   empty_extraction_band_count invisible_button_page sample_cfg
     (by norm_num [sample_cfg]) (by decide) (by decide)⟩

/-! ## Band membership arithmetic -/

theorem mem_filter_buttons (be : List Button) (a c : ℚ) (b : Button) :
    b ∈ filter_buttons_by_y_range be a c ↔
      b ∈ be ∧ a ≤ b.position.2 ∧ b.position.2 < c := by
  simp [filter_buttons_by_y_range, List.mem_filter, and_assoc]

theorem mem_filter_inputs (ie : List Input) (a c : ℚ) (i : Input) :
    i ∈ filter_inputs_by_y_range ie a c ↔
      i ∈ ie ∧ a ≤ i.position.2 ∧ i.position.2 < c := by
  simp [filter_inputs_by_y_range, List.mem_filter, and_assoc]

/-- The half-open bands `[j*h, j*h + h)` are pairwise disjoint. -/
theorem band_interval_unique (h : ℚ) (hh : 0 < h) (y : ℚ) (j1 j2 : Nat)
    (h1 : (j1 : ℚ) * h ≤ y ∧ y < (j1 : ℚ) * h + h)
    (h2 : (j2 : ℚ) * h ≤ y ∧ y < (j2 : ℚ) * h + h) : j1 = j2 := by
  rcases lt_trichotomy j1 j2 with hlt | heq | hgt
  · exfalso
    have hle : ((j1 : ℚ) + 1) ≤ (j2 : ℚ) := by
      exact_mod_cast Nat.succ_le_of_lt hlt
    nlinarith [h1.2, h2.1]
  · exact heq
  · exfalso
    have hle : ((j2 : ℚ) + 1) ≤ (j1 : ℚ) := by
      exact_mod_cast Nat.succ_le_of_lt hgt
    nlinarith [h2.2, h1.1]

/-- A `y` with `0 ≤ y` lies in the band indexed by `⌊y/h⌋`. -/
theorem band_floor_mem (h : ℚ) (hh : 0 < h) (y : ℚ) (hy0 : 0 ≤ y) :
    ((⌊y / h⌋).toNat : ℚ) * h ≤ y ∧ y < ((⌊y / h⌋).toNat : ℚ) * h + h := by
  have hfl : 0 ≤ ⌊y / h⌋ := Int.floor_nonneg.mpr (div_nonneg hy0 hh.le)
  have hcast : (((⌊y / h⌋).toNat : ℕ) : ℚ) = ((⌊y / h⌋ : ℤ) : ℚ) := by
    exact_mod_cast congrArg (fun z : ℤ => (z : ℚ)) (Int.toNat_of_nonneg hfl)
  constructor
  · rw [hcast]
    have := Int.floor_le (y / h)
    calc ((⌊y / h⌋ : ℤ) : ℚ) * h ≤ (y / h) * h := by
          apply mul_le_mul_of_nonneg_right this hh.le
      _ = y := div_mul_cancel₀ y (ne_of_gt hh)
  · rw [hcast]
    have := Int.lt_floor_add_one (y / h)
    have h2 : y / h * h < (((⌊y / h⌋ : ℤ) : ℚ) + 1) * h := by
      apply mul_lt_mul_of_pos_right this hh
    rw [div_mul_cancel₀ y (ne_of_gt hh)] at h2
    linarith [h2]

/-- The floor band index is below `n` whenever `y < n*h`. -/
theorem band_floor_lt (h : ℚ) (hh : 0 < h) (y : ℚ) (hy0 : 0 ≤ y) (n : Nat)
    (hy : y < (n : ℚ) * h) : (⌊y / h⌋).toNat < n := by
  have hdiv : y / h < (n : ℚ) := (div_lt_iff₀ hh).mpr hy
  have hlt : ⌊y / h⌋ < (n : ℤ) := Int.floor_lt.mpr (by exact_mod_cast hdiv)
  have hfl : 0 ≤ ⌊y / h⌋ := Int.floor_nonneg.mpr (div_nonneg hy0 hh.le)
  omega

/-- C2 (amended): with a positive band height and a positive effective
`max_y`, the materialized chunks are exactly the ascending, contiguous,
non-overlapping half-open bands `[j*h, (j+1)*h)` for `j < ⌈max_y/h⌉`; every
extracted button/input with `0 ≤ Y < ⌈max_y/h⌉ * h` appears in exactly one
band; an element whose `Y` is exactly a band boundary `j*h` with `j < n`
belongs to band `j`, the higher-indexed (lower on screen) of the two bands
meeting there; and an element with `Y = max_y` appears in no band at all
when `max_y` is an exact multiple of the band height. -/
theorem spatial_chunking_amended (p : PageModel) (cfg : PaginationConfig)
    (hh : 0 < cfg.parse_item_size) (hpos : 0 < effMaxY p) :
    (parse_page_buttons_items p cfg).2.2.length = numBands p cfg ∧
    numBands p cfg ≠ 0 ∧
    (∀ (j : Nat) it, ((parse_page_buttons_items p cfg).2.2)[j]? = some it →
      it.item_id = j ∧
      it.buttons = filter_buttons_by_y_range (buttonsExternal p)
        ((j : ℚ) * cfg.parse_item_size)
        ((j : ℚ) * cfg.parse_item_size + cfg.parse_item_size) ∧
      it.inputs = filter_inputs_by_y_range (inputsExternal p)
        ((j : ℚ) * cfg.parse_item_size)
        ((j : ℚ) * cfg.parse_item_size + cfg.parse_item_size)) ∧
    (∀ b ∈ buttonsExternal p, 0 ≤ b.position.2 →
      b.position.2 < (numBands p cfg : ℚ) * cfg.parse_item_size →
      ∃! j : Nat, ∃ it, ((parse_page_buttons_items p cfg).2.2)[j]? = some it ∧
        b ∈ it.buttons) ∧
    (∀ i ∈ inputsExternal p, 0 ≤ i.position.2 →
      i.position.2 < (numBands p cfg : ℚ) * cfg.parse_item_size →
      ∃! j : Nat, ∃ it, ((parse_page_buttons_items p cfg).2.2)[j]? = some it ∧
        i ∈ it.inputs) ∧
    (∀ b ∈ buttonsExternal p, ∀ j : Nat, j < numBands p cfg →
      b.position.2 = (j : ℚ) * cfg.parse_item_size →
      ∃ it, ((parse_page_buttons_items p cfg).2.2)[j]? = some it ∧
        b ∈ it.buttons) ∧
    (∀ b ∈ buttonsExternal p, b.position.2 = effMaxY p →
      effMaxY p = (numBands p cfg : ℚ) * cfg.parse_item_size →
      ∀ it ∈ (parse_page_buttons_items p cfg).2.2, b ∉ it.buttons) := by
  have hn0 : numBands p cfg ≠ 0 := by
    have : 0 < ⌈effMaxY p / cfg.parse_item_size⌉ :=
      Int.ceil_pos.mpr (div_pos hpos hh)
    rw [numBands]
    omega
  have hspec := parse_buttons_spec p cfg hh
  rw [if_neg hn0] at hspec
  have hget : ∀ j : Nat, j < numBands p cfg →
      ((parse_page_buttons_items p cfg).2.2)[j]? = some
        { item_id := j, total_items := (numBands p cfg : Int),
          url := p.url, title := p.title,
          buttons := filter_buttons_by_y_range (buttonsExternal p)
            ((j : ℚ) * cfg.parse_item_size)
            ((j : ℚ) * cfg.parse_item_size + cfg.parse_item_size),
          inputs := filter_inputs_by_y_range (inputsExternal p)
            ((j : ℚ) * cfg.parse_item_size)
            ((j : ℚ) * cfg.parse_item_size + cfg.parse_item_size) } := by
    intro j hj
    rw [hspec, List.getElem?_map, List.getElem?_range hj]
    rfl
  have hget_inv : ∀ (j : Nat) it,
      ((parse_page_buttons_items p cfg).2.2)[j]? = some it →
      j < numBands p cfg ∧ it =
        { item_id := j, total_items := (numBands p cfg : Int),
          url := p.url, title := p.title,
          buttons := filter_buttons_by_y_range (buttonsExternal p)
            ((j : ℚ) * cfg.parse_item_size)
            ((j : ℚ) * cfg.parse_item_size + cfg.parse_item_size),
          inputs := filter_inputs_by_y_range (inputsExternal p)
            ((j : ℚ) * cfg.parse_item_size)
            ((j : ℚ) * cfg.parse_item_size + cfg.parse_item_size) } := by
    intro j it hit
    have hj : j < numBands p cfg := by
      by_contra hge
      rw [hspec] at hit
      rw [List.getElem?_eq_none] at hit
      · exact Option.noConfusion hit
      · rw [List.length_map, List.length_range]
        omega
    refine ⟨hj, ?_⟩
    rw [hget j hj] at hit
    exact (Option.some.injEq _ _).mp hit.symm
  refine ⟨?_, hn0, ?_, ?_, ?_, ?_, ?_⟩
  · rw [hspec, List.length_map, List.length_range]
  · intro j it hit
    obtain ⟨hj, rfl⟩ := hget_inv j it hit
    exact ⟨rfl, rfl, rfl⟩
  · intro b hb hy0 hyn
    refine ⟨(⌊b.position.2 / cfg.parse_item_size⌋).toNat, ?_, ?_⟩
    · have hmem := band_floor_mem cfg.parse_item_size hh b.position.2 hy0
      have hjlt := band_floor_lt cfg.parse_item_size hh b.position.2 hy0 _ hyn
      exact ⟨_, hget _ hjlt, (mem_filter_buttons _ _ _ b).mpr ⟨hb, hmem.1, hmem.2⟩⟩
    · intro j' hj'
      obtain ⟨it, hit, hbin⟩ := hj'
      obtain ⟨hjlt', rfl⟩ := hget_inv j' it hit
      have hcond := (mem_filter_buttons _ _ _ b).mp hbin
      have hmem := band_floor_mem cfg.parse_item_size hh b.position.2 hy0
      exact band_interval_unique cfg.parse_item_size hh b.position.2 _ _
        ⟨hcond.2.1, hcond.2.2⟩ hmem
  · intro i hi hy0 hyn
    refine ⟨(⌊i.position.2 / cfg.parse_item_size⌋).toNat, ?_, ?_⟩
    · have hmem := band_floor_mem cfg.parse_item_size hh i.position.2 hy0
      have hjlt := band_floor_lt cfg.parse_item_size hh i.position.2 hy0 _ hyn
      exact ⟨_, hget _ hjlt, (mem_filter_inputs _ _ _ i).mpr ⟨hi, hmem.1, hmem.2⟩⟩
    · intro j' hj'
      obtain ⟨it, hit, hbin⟩ := hj'
      obtain ⟨hjlt', rfl⟩ := hget_inv j' it hit
      have hcond := (mem_filter_inputs _ _ _ i).mp hbin
      have hmem := band_floor_mem cfg.parse_item_size hh i.position.2 hy0
      exact band_interval_unique cfg.parse_item_size hh i.position.2 _ _
        ⟨hcond.2.1, hcond.2.2⟩ hmem
  · intro b hb j hj hyb
    refine ⟨_, hget j hj, (mem_filter_buttons _ _ _ b).mpr ⟨hb, ?_, ?_⟩⟩
    · rw [hyb]
    · rw [hyb]; linarith
  · intro b hb hymax hmul
    intro it hit
    rw [hspec, List.mem_map] at hit
    obtain ⟨j, hjr, rfl⟩ := hit
    rw [List.mem_range] at hjr
    intro hbin
    have hcond := (mem_filter_buttons _ _ _ b).mp hbin
    have hj1 : ((j : ℚ) + 1) ≤ (numBands p cfg : ℚ) := by
      exact_mod_cast Nat.succ_le_of_lt hjr
    have hy : b.position.2 = (numBands p cfg : ℚ) * cfg.parse_item_size :=
      hymax.trans hmul
    nlinarith [hcond.2.2, hy, hj1, hh]
/-! ## Concrete spatial-chunking scenarios (band height 100) -/

/-- Pagination sizes with band height 100, for the boundary scenarios. -/
def band_cfg : PaginationConfig :=
  { text_chunk_size := 700, parse_item_size := 100, links_chunk_size := 20 }

/-- Two visible buttons whose bounding boxes centre at Y = 100 (the exact
boundary between bands 0 and 1) and Y = 150. -/
def boundary_page : PageModel :=
  { url := "u".data, title := "t".data, visible_text := [],
    button_elems :=
      [⟨true, none, none, some (0, 85, 0, 30), none, false⟩,
       ⟨true, none, none, some (0, 135, 0, 30), none, false⟩],
    input_elems := [], link_elems := [], scroll_height := 0 }

/-- A single visible button centred at Y = 100, so that `max_y = 100` is an
exact multiple of the band height. -/
def dropped_page : PageModel :=
  { url := "u".data, title := "t".data, visible_text := [],
    button_elems := [⟨true, none, none, some (0, 85, 0, 30), none, false⟩],
    input_elems := [], link_elems := [], scroll_height := 0 }

theorem boundary_page_be : buttonsExternal boundary_page =
    [⟨0, [], (0, 100), none⟩, ⟨1, [], (0, 150), none⟩] := by
  norm_num [buttonsExternal, boundary_page, extract_buttons, pyOr, pyStrip]

theorem boundary_page_ie : inputsExternal boundary_page = [] := by
  rw [inputsExternal]
  rw [extract_inputs_all_skipped _ _ (by intro e he; simp [boundary_page] at he)]

theorem boundary_page_maxY : effMaxY boundary_page = 150 := by
  rw [effMaxY, boundary_page_be, boundary_page_ie]
  norm_num [getMaxY]

theorem boundary_page_n : numBands boundary_page band_cfg = 2 := by
  rw [numBands, boundary_page_maxY,
    show band_cfg.parse_item_size = (100 : ℚ) from rfl]
  have hc : (⌈(150 : ℚ) / 100⌉) = 2 := by
    rw [Int.ceil_eq_iff]
    constructor <;> norm_num
  rw [hc]
  rfl

theorem dropped_page_be : buttonsExternal dropped_page =
    [⟨0, [], (0, 100), none⟩] := by
  norm_num [buttonsExternal, dropped_page, extract_buttons, pyOr, pyStrip]

theorem dropped_page_ie : inputsExternal dropped_page = [] := by
  rw [inputsExternal]
  rw [extract_inputs_all_skipped _ _ (by intro e he; simp [dropped_page] at he)]

theorem dropped_page_maxY : effMaxY dropped_page = 100 := by
  rw [effMaxY, dropped_page_be, dropped_page_ie]
  norm_num [getMaxY]

theorem dropped_page_n : numBands dropped_page band_cfg = 1 := by
  rw [numBands, dropped_page_maxY,
    show band_cfg.parse_item_size = (100 : ℚ) from rfl]
  have hc : (⌈(100 : ℚ) / 100⌉) = 1 := by
    rw [Int.ceil_eq_iff]
    constructor <;> norm_num
  rw [hc]
  rfl

/-- C2 counterexample: with band height 100, the button centred exactly on
the band boundary Y = 100 of `boundary_page` lands in band 1 (the
higher-indexed, lower-on-screen band), not in band 0 — refuting "an element
whose Y lies exactly on a band boundary belongs to the lower-indexed (upper)
band"; and on `dropped_page`, whose only button is centred at
`Y = max_y = 100`, an exact band multiple, the element appears in no band at
all — refuting "every element appears in exactly one band". -/
theorem spatial_chunking_counterexample :
    ((⟨0, [], (0, 100), none⟩ : Button) ∈ buttonsExternal boundary_page ∧
     (parse_page_buttons_items boundary_page band_cfg).2.2.length = 2 ∧
     (∀ it, ((parse_page_buttons_items boundary_page band_cfg).2.2)[0]? = some it →
        (⟨0, [], (0, 100), none⟩ : Button) ∉ it.buttons) ∧
     (∀ it, ((parse_page_buttons_items boundary_page band_cfg).2.2)[1]? = some it →
        (⟨0, [], (0, 100), none⟩ : Button) ∈ it.buttons)) ∧
    ((⟨0, [], (0, 100), none⟩ : Button) ∈ buttonsExternal dropped_page ∧
     (parse_page_buttons_items dropped_page band_cfg).2.2.length = 1 ∧
     ∀ it ∈ (parse_page_buttons_items dropped_page band_cfg).2.2,
        (⟨0, [], (0, 100), none⟩ : Button) ∉ it.buttons) := by
  have hspec1 := parse_buttons_spec boundary_page band_cfg (by norm_num [band_cfg])
  rw [boundary_page_n, if_neg (by norm_num)] at hspec1
  have hspec2 := parse_buttons_spec dropped_page band_cfg (by norm_num [band_cfg])
  rw [dropped_page_n, if_neg (by norm_num)] at hspec2
  refine ⟨⟨?_, ?_, ?_, ?_⟩, ?_, ?_, ?_⟩
  · rw [boundary_page_be]
    exact List.mem_cons_self _ _
  · rw [hspec1, List.length_map, List.length_range]
  · intro it hit
    rw [hspec1] at hit
    rw [List.getElem?_map, List.getElem?_range (by norm_num)] at hit
    simp only [Option.map_some', Option.some.injEq] at hit
    subst hit
    intro hmem
    have h := (mem_filter_buttons _ _ _ _).mp hmem
    have h2 := h.2.2
    norm_num [band_cfg] at h2
  · intro it hit
    rw [hspec1] at hit
    rw [List.getElem?_map, List.getElem?_range (by norm_num)] at hit
    simp only [Option.map_some', Option.some.injEq] at hit
    subst hit
    apply (mem_filter_buttons _ _ _ _).mpr
    refine ⟨?_, ?_, ?_⟩
    · rw [boundary_page_be]
      exact List.mem_cons_self _ _
    · norm_num [band_cfg]
    · norm_num [band_cfg]
  · rw [dropped_page_be]
    exact List.mem_cons_self _ _
  · rw [hspec2, List.length_map, List.length_range]
  · intro it hit
    rw [hspec2, List.mem_map] at hit
    obtain ⟨j, hjr, rfl⟩ := hit
    rw [List.mem_range] at hjr
    have hj0 : j = 0 := by omega
    subst hj0
    intro hmem
    have h := (mem_filter_buttons _ _ _ _).mp hmem
    have h2 := h.2.2
    norm_num [band_cfg] at h2
/-- C2 witness: the amended spatial-chunking theorem applied to
`boundary_page` with band height 100 (positive effective `max_y = 150`). -/
theorem spatial_chunking_amended_witness :
    (0 < band_cfg.parse_item_size ∧ 0 < effMaxY boundary_page) ∧
    ((parse_page_buttons_items boundary_page band_cfg).2.2.length =
        numBands boundary_page band_cfg ∧
    numBands boundary_page band_cfg ≠ 0 ∧
    (∀ (j : Nat) it,
        ((parse_page_buttons_items boundary_page band_cfg).2.2)[j]? = some it →
      it.item_id = j ∧
      it.buttons = filter_buttons_by_y_range (buttonsExternal boundary_page)
        ((j : ℚ) * band_cfg.parse_item_size)
        ((j : ℚ) * band_cfg.parse_item_size + band_cfg.parse_item_size) ∧
      it.inputs = filter_inputs_by_y_range (inputsExternal boundary_page)
        ((j : ℚ) * band_cfg.parse_item_size)
        ((j : ℚ) * band_cfg.parse_item_size + band_cfg.parse_item_size)) ∧
    (∀ b ∈ buttonsExternal boundary_page, 0 ≤ b.position.2 →
      b.position.2 < (numBands boundary_page band_cfg : ℚ) * band_cfg.parse_item_size →
      ∃! j : Nat, ∃ it,
        ((parse_page_buttons_items boundary_page band_cfg).2.2)[j]? = some it ∧
        b ∈ it.buttons) ∧
    (∀ i ∈ inputsExternal boundary_page, 0 ≤ i.position.2 →
      i.position.2 < (numBands boundary_page band_cfg : ℚ) * band_cfg.parse_item_size →
      ∃! j : Nat, ∃ it,
        ((parse_page_buttons_items boundary_page band_cfg).2.2)[j]? = some it ∧
        i ∈ it.inputs) ∧
    (∀ b ∈ buttonsExternal boundary_page, ∀ j : Nat,
      j < numBands boundary_page band_cfg →
      b.position.2 = (j : ℚ) * band_cfg.parse_item_size →
      ∃ it, ((parse_page_buttons_items boundary_page band_cfg).2.2)[j]? = some it ∧
        b ∈ it.buttons) ∧
    (∀ b ∈ buttonsExternal boundary_page, b.position.2 = effMaxY boundary_page →
      effMaxY boundary_page =
        (numBands boundary_page band_cfg : ℚ) * band_cfg.parse_item_size →
      ∀ it ∈ (parse_page_buttons_items boundary_page band_cfg).2.2,
        b ∉ it.buttons)) :=
  ⟨⟨by norm_num [band_cfg], by rw [boundary_page_maxY]; norm_num⟩,
   spatial_chunking_amended boundary_page band_cfg (by norm_num [band_cfg])
     (by rw [boundary_page_maxY]; norm_num)⟩
/-! ## Extraction id and metadata lemmas -/

/-- The agent-facing button list is the internal list minus the live handle:
field for field. -/
theorem extract_buttons_external_eq_map (elems : List RawButtonElem) :
    ∀ c : Nat, (extract_buttons c elems).2.2 =
      (extract_buttons c elems).2.1.map
        (fun ib => ⟨ib.id, ib.text, ib.position, ib.parent_text⟩) := by
  induction elems with
  | nil => intro c; rfl
  | cons e rest ih =>
    intro c
    rw [extract_buttons]
    by_cases hg : e.raises = true ∨ e.visible = false
    · rw [if_pos hg]
      exact ih c
    · rw [if_neg hg]
      rcases hbox : e.box with _ | ⟨x, y, w, h⟩
      · exact ih c
      · simp only [List.map_cons]
        rw [ih (c + 1)]

theorem extract_inputs_external_eq_map (elems : List RawInputElem) :
    ∀ c : Nat, (extract_inputs c elems).2.2 =
      (extract_inputs c elems).2.1.map
        (fun ii => ⟨ii.id, ii.input_type, ii.name, ii.placeholder, ii.position,
          ii.parent_text⟩) := by
  induction elems with
  | nil => intro c; rfl
  | cons e rest ih =>
    intro c
    rw [extract_inputs]
    by_cases hg : e.raises = true ∨ e.visible = false
    · rw [if_pos hg]
      exact ih c
    · rw [if_neg hg]
      rcases hbox : e.box with _ | ⟨x, y, w, h⟩
      · exact ih c
      · simp only [List.map_cons]
        rw [ih (c + 1)]

/-- The id counter never decreases. -/
theorem extract_buttons_counter_le (elems : List RawButtonElem) :
    ∀ c : Nat, c ≤ (extract_buttons c elems).1 := by
  induction elems with
  | nil => intro c; exact le_refl c
  | cons e rest ih =>
    intro c
    rw [extract_buttons]
    by_cases hg : e.raises = true ∨ e.visible = false
    · rw [if_pos hg]
      exact ih c
    · rw [if_neg hg]
      rcases hbox : e.box with _ | ⟨x, y, w, h⟩
      · exact ih c
      · exact le_trans (Nat.le_succ c) (ih (c + 1))

theorem extract_inputs_counter_le (elems : List RawInputElem) :
    ∀ c : Nat, c ≤ (extract_inputs c elems).1 := by
  induction elems with
  | nil => intro c; exact le_refl c
  | cons e rest ih =>
    intro c
    rw [extract_inputs]
    by_cases hg : e.raises = true ∨ e.visible = false
    · rw [if_pos hg]
      exact ih c
    · rw [if_neg hg]
      rcases hbox : e.box with _ | ⟨x, y, w, h⟩
      · exact ih c
      · exact le_trans (Nat.le_succ c) (ih (c + 1))

/-- Every id issued by button extraction lies in `[c, final counter)`. -/
theorem extract_buttons_ids_bounds (elems : List RawButtonElem) :
    ∀ c : Nat, ∀ ib ∈ (extract_buttons c elems).2.1,
      c ≤ ib.id ∧ ib.id < (extract_buttons c elems).1 := by
  induction elems with
  | nil => intro c ib hib; exact absurd hib (List.not_mem_nil ib)
  | cons e rest ih =>
    intro c ib hib
    rw [extract_buttons] at hib ⊢
    by_cases hg : e.raises = true ∨ e.visible = false
    · rw [if_pos hg] at hib ⊢
      exact ih c ib hib
    · rw [if_neg hg] at hib ⊢
      rcases hbox : e.box with _ | ⟨x, y, w, h⟩
      · rw [hbox] at hib
        exact ih c ib hib
      · rw [hbox] at hib
        rcases List.mem_cons.mp hib with rfl | hib'
        · exact ⟨le_refl c, Nat.lt_of_lt_of_le (Nat.lt_succ_self c)
            (extract_buttons_counter_le rest (c + 1))⟩
        · have := ih (c + 1) ib hib'
          exact ⟨le_trans (Nat.le_succ c) this.1, this.2⟩

theorem extract_inputs_ids_bounds (elems : List RawInputElem) :
    ∀ c : Nat, ∀ ii ∈ (extract_inputs c elems).2.1,
      c ≤ ii.id ∧ ii.id < (extract_inputs c elems).1 := by
  induction elems with
  | nil => intro c ii hii; exact absurd hii (List.not_mem_nil ii)
  | cons e rest ih =>
    intro c ii hii
    rw [extract_inputs] at hii ⊢
    by_cases hg : e.raises = true ∨ e.visible = false
    · rw [if_pos hg] at hii ⊢
      exact ih c ii hii
    · rw [if_neg hg] at hii ⊢
      rcases hbox : e.box with _ | ⟨x, y, w, h⟩
      · rw [hbox] at hii
        exact ih c ii hii
      · rw [hbox] at hii
        rcases List.mem_cons.mp hii with rfl | hii'
        · exact ⟨le_refl c, Nat.lt_of_lt_of_le (Nat.lt_succ_self c)
            (extract_inputs_counter_le rest (c + 1))⟩
        · have := ih (c + 1) ii hii'
          exact ⟨le_trans (Nat.le_succ c) this.1, this.2⟩

/-- The issued button ids are strictly increasing in registration order. -/
theorem extract_buttons_ids_chain (elems : List RawButtonElem) :
    ∀ c : Nat,
      List.Chain' (· < ·) ((extract_buttons c elems).2.1.map ButtonInternal.id) := by
  induction elems with
  | nil => intro c; exact List.chain'_nil
  | cons e rest ih =>
    intro c
    rw [extract_buttons]
    by_cases hg : e.raises = true ∨ e.visible = false
    · rw [if_pos hg]
      exact ih c
    · rw [if_neg hg]
      rcases hbox : e.box with _ | ⟨x, y, w, h⟩
      · exact ih c
      · simp only [List.map_cons]
        rw [List.chain'_cons']
        refine ⟨?_, ih (c + 1)⟩
        intro b hb
        have hmem : b ∈ (extract_buttons (c + 1) rest).2.1.map ButtonInternal.id :=
          List.mem_of_mem_head? hb
        rw [List.mem_map] at hmem
        obtain ⟨ib, hib, rfl⟩ := hmem
        have := (extract_buttons_ids_bounds rest (c + 1) ib hib).1
        omega

theorem extract_inputs_ids_chain (elems : List RawInputElem) :
    ∀ c : Nat,
      List.Chain' (· < ·) ((extract_inputs c elems).2.1.map InputInternal.id) := by
  induction elems with
  | nil => intro c; exact List.chain'_nil
  | cons e rest ih =>
    intro c
    rw [extract_inputs]
    by_cases hg : e.raises = true ∨ e.visible = false
    · rw [if_pos hg]
      exact ih c
    · rw [if_neg hg]
      rcases hbox : e.box with _ | ⟨x, y, w, h⟩
      · exact ih c
      · simp only [List.map_cons]
        rw [List.chain'_cons']
        refine ⟨?_, ih (c + 1)⟩
        intro b hb
        have hmem : b ∈ (extract_inputs (c + 1) rest).2.1.map InputInternal.id :=
          List.mem_of_mem_head? hb
        rw [List.mem_map] at hmem
        obtain ⟨ii, hii, rfl⟩ := hmem
        have := (extract_inputs_ids_bounds rest (c + 1) ii hii).1
        omega

/-- `dict.get` modelled as `find?`: with pairwise-distinct keys, looking up
the key of a member returns exactly that member. -/
theorem find?_key_of_mem {β : Type} (key : β → Nat) :
    ∀ (l : List β) (x : β), (l.map key).Nodup → x ∈ l →
      l.find? (fun y => key y = key x) = some x := by
  intro l
  induction l with
  | nil => intro x _ hx; exact absurd hx (List.not_mem_nil x)
  | cons a rest ih =>
    intro x hnd hx
    rw [List.map_cons, List.nodup_cons] at hnd
    by_cases ha : key a = key x
    · rcases List.mem_cons.mp hx with rfl | hx'
      · exact List.find?_cons_of_pos rest (by simp)
      · exfalso
        apply hnd.1
        rw [ha]
        exact List.mem_map_of_mem key hx'
    · rw [List.find?_cons_of_neg rest (by simp [ha])]
      rcases List.mem_cons.mp hx with rfl | hx'
      · exact absurd rfl ha
      · exact ih x hnd.2 hx'
/-! ## Registry population (C5 machinery) -/

theorem bandsGo_mem_filters (be : List Button) (ie : List Input) (u t : Str)
    (h maxY : ℚ) : ∀ fuel (y : ℚ) (idx : Nat) item,
    item ∈ bandsGo be ie u t h maxY fuel y idx →
    ∃ a b, item.buttons = filter_buttons_by_y_range be a b ∧
      item.inputs = filter_inputs_by_y_range ie a b := by
  intro fuel
  induction fuel with
  | zero =>
    intro y idx item hitem
    rw [show bandsGo be ie u t h maxY 0 y idx = [] from rfl] at hitem
    exact absurd hitem (List.not_mem_nil item)
  | succ fuel ih =>
    intro y idx item hitem
    rw [bandsGo] at hitem
    by_cases hy : y < maxY
    · rw [if_pos hy] at hitem
      rcases List.mem_cons.mp hitem with rfl | hitem'
      · exact ⟨y, y + h, rfl, rfl⟩
      · exact ih (y + h) (idx + 1) item hitem'
    · rw [if_neg hy] at hitem
      exact absurd hitem (List.not_mem_nil item)

theorem buttonsExternal_def (p : PageModel) :
    buttonsExternal p = (extract_buttons 0 p.button_elems).2.2 := rfl

theorem inputsExternal_def (p : PageModel) :
    inputsExternal p =
      (extract_inputs (extract_buttons 0 p.button_elems).1 p.input_elems).2.2 := rfl

theorem parse_buttons_fst (p : PageModel) (cfg : PaginationConfig) :
    (parse_page_buttons_items p cfg).1 =
      (extract_buttons 0 p.button_elems).2.1 := rfl

theorem parse_buttons_snd (p : PageModel) (cfg : PaginationConfig) :
    (parse_page_buttons_items p cfg).2.1 =
      (extract_inputs (extract_buttons 0 p.button_elems).1 p.input_elems).2.1 := rfl

/-- The materialized item list is never empty (the empty-page fallback). -/
theorem parse_buttons_items_ne_nil (p : PageModel) (cfg : PaginationConfig) :
    (parse_page_buttons_items p cfg).2.2 ≠ [] := by
  simp only [parse_page_buttons_items, ne_eq, List.map_eq_nil_iff]
  split_ifs with h1 h2 h3 <;> simp_all [List.isEmpty_iff]

/-- Every button/input listed in a materialized chunk comes from the
extraction result of that materialization. -/
theorem parse_buttons_item_subset (p : PageModel) (cfg : PaginationConfig) :
    ∀ item ∈ (parse_page_buttons_items p cfg).2.2,
      (∀ b ∈ item.buttons, b ∈ buttonsExternal p) ∧
      (∀ i ∈ item.inputs, i ∈ inputsExternal p) := by
  intro item hitem
  simp only [parse_page_buttons_items] at hitem
  rw [List.mem_map] at hitem
  obtain ⟨it0, hit0, rfl⟩ := hitem
  split_ifs at hit0 with h1 h2 h3
  case pos =>
    rcases List.mem_singleton.mp hit0 with rfl
    exact ⟨fun b hb => absurd hb (List.not_mem_nil b),
           fun i hi => absurd hi (List.not_mem_nil i)⟩
  case pos =>
    rcases List.mem_singleton.mp hit0 with rfl
    exact ⟨fun b hb => absurd hb (List.not_mem_nil b),
           fun i hi => absurd hi (List.not_mem_nil i)⟩
  all_goals
    obtain ⟨a, b, hbf, hif⟩ := bandsGo_mem_filters _ _ _ _ _ _ _ _ _ it0 hit0
  all_goals constructor
  all_goals intro x hx
  all_goals
    first
      | (have hx2 : x ∈ it0.buttons := hx
         rw [hbf] at hx2
         rw [buttonsExternal_def]
         exact ((mem_filter_buttons _ _ _ x).mp hx2).1)
      | (have hx2 : x ∈ it0.inputs := hx
         rw [hif] at hx2
         rw [inputsExternal_def]
         exact ((mem_filter_inputs _ _ _ x).mp hx2).1)

/-- A call on an invalidated (or never-populated, or URL-mismatched) cache
re-parses, stores the element registries, and returns chunk 0. -/
theorem get_next_buttons_materialize (p : PageModel) (cfg : PaginationConfig)
    (s : BMState)
    (htrig : s.last_buttons_parsed_url ≠ some p.url ∨ s.buttons_items = []) :
    get_next_page_buttons_item p cfg s =
      (((parse_page_buttons_items p cfg).2.2)[0]?,
       { s with buttons_internal := (parse_page_buttons_items p cfg).1,
                inputs_internal := (parse_page_buttons_items p cfg).2.1,
                buttons_items := (parse_page_buttons_items p cfg).2.2,
                current_buttons_index := 1,
                last_buttons_parsed_url := some p.url }) := by
  have hne := parse_buttons_items_ne_nil p cfg
  have hlen : 0 < (parse_page_buttons_items p cfg).2.2.length :=
    List.length_pos.mpr hne
  rw [get_next_page_buttons_item]
  simp only [if_pos htrig]
  rw [dif_pos (by simpa using hlen)]
  refine Prod.ext ?_ ?_
  · simp only [List.get_eq_getElem]
    rw [← List.getElem?_eq_getElem]
    rw [if_pos htrig]
  · simp
/-- C5: on a materializing call of `get_next_page_buttons_item` (invalidated,
never-populated, or URL-mismatched cache), the registered button and input
ids are strictly increasing under the single counter shared across buttons
and inputs (hence pairwise distinct); the registries are fully populated in
the very state that delivers chunk 0 (which is returned, not the exhaustion
sentinel); and every id carried by any chunk of the materialization resolves
through `get_button_by_id`/`get_input_by_id` to an internal element with
exactly the text/type/name/placeholder/position/parent-text metadata the
chunk carries. -/
theorem registry_population_and_resolution (p : PageModel)
    (cfg : PaginationConfig) (s : BMState)
    (htrig : s.last_buttons_parsed_url ≠ some p.url ∨ s.buttons_items = []) :
    List.Chain' (· < ·)
      (((get_next_page_buttons_item p cfg s).2.buttons_internal.map ButtonInternal.id) ++
       ((get_next_page_buttons_item p cfg s).2.inputs_internal.map InputInternal.id)) ∧
    (((get_next_page_buttons_item p cfg s).2.buttons_internal.map ButtonInternal.id) ++
       ((get_next_page_buttons_item p cfg s).2.inputs_internal.map InputInternal.id)).Nodup ∧
    (get_next_page_buttons_item p cfg s).1 =
      ((parse_page_buttons_items p cfg).2.2)[0]? ∧
    ((get_next_page_buttons_item p cfg s).1).isSome = true ∧
    (∀ item ∈ (get_next_page_buttons_item p cfg s).2.buttons_items,
      ∀ b ∈ item.buttons,
        get_button_by_id (get_next_page_buttons_item p cfg s).2 b.id =
          some ⟨b.id, b.text, b.position, b.parent_text⟩) ∧
    (∀ item ∈ (get_next_page_buttons_item p cfg s).2.buttons_items,
      ∀ i ∈ item.inputs,
        get_input_by_id (get_next_page_buttons_item p cfg s).2 i.id =
          some ⟨i.id, i.input_type, i.name, i.placeholder, i.position,
            i.parent_text⟩) := by
  have hlen : 0 < (parse_page_buttons_items p cfg).2.2.length :=
    List.length_pos.mpr (parse_buttons_items_ne_nil p cfg)
  have hnd_b : ((extract_buttons 0 p.button_elems).2.1.map ButtonInternal.id).Nodup :=
    List.Pairwise.imp (fun h => Nat.ne_of_lt h)
      ((List.chain'_iff_pairwise).mp (extract_buttons_ids_chain p.button_elems 0))
  have hnd_i : ((extract_inputs (extract_buttons 0 p.button_elems).1
      p.input_elems).2.1.map InputInternal.id).Nodup :=
    List.Pairwise.imp (fun h => Nat.ne_of_lt h)
      ((List.chain'_iff_pairwise).mp (extract_inputs_ids_chain p.input_elems _))
  have hchain : List.Chain' (· < ·)
      ((((parse_page_buttons_items p cfg).1).map ButtonInternal.id) ++
       (((parse_page_buttons_items p cfg).2.1).map InputInternal.id)) := by
    rw [parse_buttons_fst, parse_buttons_snd, List.chain'_append]
    refine ⟨extract_buttons_ids_chain p.button_elems 0,
      extract_inputs_ids_chain p.input_elems _, ?_⟩
    intro x hx y hy
    have hxmem : x ∈ (extract_buttons 0 p.button_elems).2.1.map ButtonInternal.id := by
      obtain ⟨hne', heq⟩ := List.mem_getLast?_eq_getLast hx
      rw [heq]
      exact List.getLast_mem hne'
    have hymem : y ∈ (extract_inputs (extract_buttons 0 p.button_elems).1
        p.input_elems).2.1.map InputInternal.id := List.mem_of_mem_head? hy
    rw [List.mem_map] at hxmem hymem
    obtain ⟨ib, hib, rfl⟩ := hxmem
    obtain ⟨ii, hii, rfl⟩ := hymem
    have h1 := (extract_buttons_ids_bounds p.button_elems 0 ib hib).2
    have h2 := (extract_inputs_ids_bounds p.input_elems _ ii hii).1
    omega
  have hres_b : ∀ item ∈ (parse_page_buttons_items p cfg).2.2, ∀ b ∈ item.buttons,
      ((parse_page_buttons_items p cfg).1).find? (fun ib => ib.id = b.id) =
        some ⟨b.id, b.text, b.position, b.parent_text⟩ := by
    intro item hitem b hb
    have hbe : b ∈ buttonsExternal p :=
      (parse_buttons_item_subset p cfg item hitem).1 b hb
    rw [buttonsExternal_def, extract_buttons_external_eq_map] at hbe
    rw [List.mem_map] at hbe
    obtain ⟨ib, hib, rfl⟩ := hbe
    rw [parse_buttons_fst]
    exact find?_key_of_mem ButtonInternal.id _ ib hnd_b hib
  have hres_i : ∀ item ∈ (parse_page_buttons_items p cfg).2.2, ∀ i ∈ item.inputs,
      ((parse_page_buttons_items p cfg).2.1).find? (fun ii => ii.id = i.id) =
        some ⟨i.id, i.input_type, i.name, i.placeholder, i.position,
          i.parent_text⟩ := by
    intro item hitem i hi
    have hie : i ∈ inputsExternal p :=
      (parse_buttons_item_subset p cfg item hitem).2 i hi
    rw [inputsExternal_def, extract_inputs_external_eq_map] at hie
    rw [List.mem_map] at hie
    obtain ⟨ii, hii, rfl⟩ := hie
    rw [parse_buttons_snd]
    exact find?_key_of_mem InputInternal.id _ ii hnd_i hii
  rw [get_next_buttons_materialize p cfg s htrig]
  refine ⟨hchain, ?_, rfl, ?_, ?_, ?_⟩
  · exact List.Pairwise.imp (fun h => Nat.ne_of_lt h)
      ((List.chain'_iff_pairwise).mp hchain)
  · rw [List.getElem?_eq_getElem hlen]
    rfl
  · intro item hitem b hb
    rw [get_button_by_id]
    exact hres_b item hitem b hb
  · intro item hitem i hi
    rw [get_input_by_id]
    exact hres_i item hitem i hi

/-- A browser-manager state with every cache empty (the start state and the
state after any reset). -/
def empty_bm : BMState :=
  { text_items := [], current_text_index := 0, last_text_parsed_url := none,
    buttons_items := [], current_buttons_index := 0,
    last_buttons_parsed_url := none,
    links_items := [], current_links_index := 0, last_links_parsed_url := none,
    buttons_internal := [], inputs_internal := [] }

/-- C5 witness: materialization from the empty state on `boundary_page`. -/
theorem registry_population_and_resolution_witness :
    (empty_bm.last_buttons_parsed_url ≠ some boundary_page.url ∨
      empty_bm.buttons_items = []) ∧
    (List.Chain' (· < ·)
      (((get_next_page_buttons_item boundary_page band_cfg empty_bm).2.buttons_internal.map ButtonInternal.id) ++
       ((get_next_page_buttons_item boundary_page band_cfg empty_bm).2.inputs_internal.map InputInternal.id)) ∧
    (((get_next_page_buttons_item boundary_page band_cfg empty_bm).2.buttons_internal.map ButtonInternal.id) ++
       ((get_next_page_buttons_item boundary_page band_cfg empty_bm).2.inputs_internal.map InputInternal.id)).Nodup ∧
    (get_next_page_buttons_item boundary_page band_cfg empty_bm).1 =
      ((parse_page_buttons_items boundary_page band_cfg).2.2)[0]? ∧
    ((get_next_page_buttons_item boundary_page band_cfg empty_bm).1).isSome = true ∧
    (∀ item ∈ (get_next_page_buttons_item boundary_page band_cfg empty_bm).2.buttons_items,
      ∀ b ∈ item.buttons,
        get_button_by_id (get_next_page_buttons_item boundary_page band_cfg empty_bm).2 b.id =
          some ⟨b.id, b.text, b.position, b.parent_text⟩) ∧
    (∀ item ∈ (get_next_page_buttons_item boundary_page band_cfg empty_bm).2.buttons_items,
      ∀ i ∈ item.inputs,
        get_input_by_id (get_next_page_buttons_item boundary_page band_cfg empty_bm).2 i.id =
          some ⟨i.id, i.input_type, i.name, i.placeholder, i.position,
            i.parent_text⟩)) :=
  ⟨Or.inr rfl,
   registry_population_and_resolution boundary_page band_cfg empty_bm
     (Or.inr rfl)⟩
/-! ## Cursor protocol (C4 machinery)

On a valid cache (recorded URL equals the current URL and the item list is
non-empty) a `get_next_*` call does not re-parse: it returns the chunk under
the cursor and advances, or the exhaustion sentinel `none` with the state
untouched. -/

theorem get_next_text_no_reparse (p : PageModel) (cfg : PaginationConfig)
    (s : BMState) (hurl : s.last_text_parsed_url = some p.url)
    (hne : s.text_items ≠ []) :
    get_next_page_text_item p cfg s =
      if h : s.current_text_index < s.text_items.length then
        (some (s.text_items.get ⟨s.current_text_index, h⟩),
         { s with current_text_index := s.current_text_index + 1 })
      else (none, s) := by
  rw [get_next_page_text_item]
  have hcond : ¬(s.last_text_parsed_url ≠ some p.url ∨ s.text_items = []) := by
    simp [hurl, hne]
  rw [if_neg hcond]

theorem get_next_buttons_no_reparse (p : PageModel) (cfg : PaginationConfig)
    (s : BMState) (hurl : s.last_buttons_parsed_url = some p.url)
    (hne : s.buttons_items ≠ []) :
    get_next_page_buttons_item p cfg s =
      if h : s.current_buttons_index < s.buttons_items.length then
        (some (s.buttons_items.get ⟨s.current_buttons_index, h⟩),
         { s with current_buttons_index := s.current_buttons_index + 1 })
      else (none, s) := by
  rw [get_next_page_buttons_item]
  have hcond : ¬(s.last_buttons_parsed_url ≠ some p.url ∨ s.buttons_items = []) := by
    simp [hurl, hne]
  rw [if_neg hcond]

theorem get_next_links_no_reparse (p : PageModel) (cfg : PaginationConfig)
    (s : BMState) (hurl : s.last_links_parsed_url = some p.url)
    (hne : s.links_items ≠ []) :
    get_next_page_links_item p cfg s =
      if h : s.current_links_index < s.links_items.length then
        (some (s.links_items.get ⟨s.current_links_index, h⟩),
         { s with current_links_index := s.current_links_index + 1 })
      else (none, s) := by
  rw [get_next_page_links_item]
  have hcond : ¬(s.last_links_parsed_url ≠ some p.url ∨ s.links_items = []) := by
    simp [hurl, hne]
  rw [if_neg hcond]

theorem iterate_text_spec (p : PageModel) (cfg : PaginationConfig) :
    ∀ (m : Nat) (s : BMState),
    s.last_text_parsed_url = some p.url → s.text_items ≠ [] →
    (iterateNext (get_next_page_text_item p cfg) m s).1 =
      ((s.text_items.drop s.current_text_index).map some).take m ++
        List.replicate (m - (s.text_items.length - s.current_text_index)) none := by
  intro m
  induction m with
  | zero => intro s _ _; simp [iterateNext]
  | succ m ih =>
    intro s hurl hne
    rw [iterateNext, get_next_text_no_reparse p cfg s hurl hne]
    by_cases h : s.current_text_index < s.text_items.length
    · rw [dif_pos h]
      rw [ih { s with current_text_index := s.current_text_index + 1 } hurl hne]
      rw [List.drop_eq_getElem_cons h, List.map_cons, List.take_succ_cons,
        List.cons_append]
      simp only [List.get_eq_getElem]
      rw [show m + 1 - (s.text_items.length - s.current_text_index) =
        m - (s.text_items.length - (s.current_text_index + 1)) by omega]
    · rw [dif_neg h]
      rw [ih s hurl hne]
      have hdrop : s.text_items.drop s.current_text_index = [] :=
        List.drop_eq_nil_of_le (le_of_not_lt h)
      rw [hdrop]
      rw [show s.text_items.length - s.current_text_index = 0 by omega]
      simp [List.replicate_succ]

theorem iterate_buttons_spec (p : PageModel) (cfg : PaginationConfig) :
    ∀ (m : Nat) (s : BMState),
    s.last_buttons_parsed_url = some p.url → s.buttons_items ≠ [] →
    (iterateNext (get_next_page_buttons_item p cfg) m s).1 =
      ((s.buttons_items.drop s.current_buttons_index).map some).take m ++
        List.replicate (m - (s.buttons_items.length - s.current_buttons_index)) none := by
  intro m
  induction m with
  | zero => intro s _ _; simp [iterateNext]
  | succ m ih =>
    intro s hurl hne
    rw [iterateNext, get_next_buttons_no_reparse p cfg s hurl hne]
    by_cases h : s.current_buttons_index < s.buttons_items.length
    · rw [dif_pos h]
      rw [ih { s with current_buttons_index := s.current_buttons_index + 1 } hurl hne]
      rw [List.drop_eq_getElem_cons h, List.map_cons, List.take_succ_cons,
        List.cons_append]
      simp only [List.get_eq_getElem]
      rw [show m + 1 - (s.buttons_items.length - s.current_buttons_index) =
        m - (s.buttons_items.length - (s.current_buttons_index + 1)) by omega]
    · rw [dif_neg h]
      rw [ih s hurl hne]
      have hdrop : s.buttons_items.drop s.current_buttons_index = [] :=
        List.drop_eq_nil_of_le (le_of_not_lt h)
      rw [hdrop]
      rw [show s.buttons_items.length - s.current_buttons_index = 0 by omega]
      simp [List.replicate_succ]

theorem iterate_links_spec (p : PageModel) (cfg : PaginationConfig) :
    ∀ (m : Nat) (s : BMState),
    s.last_links_parsed_url = some p.url → s.links_items ≠ [] →
    (iterateNext (get_next_page_links_item p cfg) m s).1 =
      ((s.links_items.drop s.current_links_index).map some).take m ++
        List.replicate (m - (s.links_items.length - s.current_links_index)) none := by
  intro m
  induction m with
  | zero => intro s _ _; simp [iterateNext]
  | succ m ih =>
    intro s hurl hne
    rw [iterateNext, get_next_links_no_reparse p cfg s hurl hne]
    by_cases h : s.current_links_index < s.links_items.length
    · rw [dif_pos h]
      rw [ih { s with current_links_index := s.current_links_index + 1 } hurl hne]
      rw [List.drop_eq_getElem_cons h, List.map_cons, List.take_succ_cons,
        List.cons_append]
      simp only [List.get_eq_getElem]
      rw [show m + 1 - (s.links_items.length - s.current_links_index) =
        m - (s.links_items.length - (s.current_links_index + 1)) by omega]
    · rw [dif_neg h]
      rw [ih s hurl hne]
      have hdrop : s.links_items.drop s.current_links_index = [] :=
        List.drop_eq_nil_of_le (le_of_not_lt h)
      rw [hdrop]
      rw [show s.links_items.length - s.current_links_index = 0 by omega]
      simp [List.replicate_succ]

/-- C4: on a valid, freshly materialized cache of any of the three kinds
(recorded URL matches, cursor at 0, `n` cached chunks), `m` successive
"get next" calls deliver the first `m` chunks in id order followed by
`m - n` exhaustion sentinels: in particular the first `n` calls yield every
chunk exactly once in order, and the `(n+1)`-th and all later calls yield
the sentinel `none` — never a repeated chunk, never an error, and the cursor
never wraps around. -/
theorem cursor_exhaustion (p : PageModel) (cfg : PaginationConfig)
    (s : BMState)
    (ht1 : s.last_text_parsed_url = some p.url) (ht2 : s.text_items ≠ [])
    (ht3 : s.current_text_index = 0)
    (hb1 : s.last_buttons_parsed_url = some p.url) (hb2 : s.buttons_items ≠ [])
    (hb3 : s.current_buttons_index = 0)
    (hl1 : s.last_links_parsed_url = some p.url) (hl2 : s.links_items ≠ [])
    (hl3 : s.current_links_index = 0) :
    (∀ m : Nat, (iterateNext (get_next_page_text_item p cfg) m s).1 =
      (s.text_items.map some).take m ++
        List.replicate (m - s.text_items.length) none) ∧
    (∀ m : Nat, (iterateNext (get_next_page_buttons_item p cfg) m s).1 =
      (s.buttons_items.map some).take m ++
        List.replicate (m - s.buttons_items.length) none) ∧
    (∀ m : Nat, (iterateNext (get_next_page_links_item p cfg) m s).1 =
      (s.links_items.map some).take m ++
        List.replicate (m - s.links_items.length) none) := by
  refine ⟨?_, ?_, ?_⟩
  · intro m
    have := iterate_text_spec p cfg m s ht1 ht2
    rw [ht3, List.drop_zero, Nat.sub_zero] at this
    exact this
  · intro m
    have := iterate_buttons_spec p cfg m s hb1 hb2
    rw [hb3, List.drop_zero, Nat.sub_zero] at this
    exact this
  · intro m
    have := iterate_links_spec p cfg m s hl1 hl2
    rw [hl3, List.drop_zero, Nat.sub_zero] at this
    exact this

/-- A minimal page at URL `u`. -/
def blank_page : PageModel :=
  { url := "u".data, title := "t".data, visible_text := [],
    button_elems := [], input_elems := [], link_elems := [], scroll_height := 0 }

/-- A state whose three caches are all valid for `blank_page` and hold one
chunk each, cursors at 0. -/
def full_bm : BMState :=
  { text_items := [⟨0, 1, "u".data, "t".data, []⟩],
    current_text_index := 0, last_text_parsed_url := some "u".data,
    buttons_items := [⟨0, 1, "u".data, "t".data, [], []⟩],
    current_buttons_index := 0, last_buttons_parsed_url := some "u".data,
    links_items := [⟨0, 1, "u".data, "t".data, []⟩],
    current_links_index := 0, last_links_parsed_url := some "u".data,
    buttons_internal := [], inputs_internal := [] }

/-- C4 witness: the cursor law on `full_bm` over `blank_page`. -/
theorem cursor_exhaustion_witness :
    (full_bm.last_text_parsed_url = some blank_page.url ∧
     full_bm.text_items ≠ [] ∧ full_bm.current_text_index = 0 ∧
     full_bm.last_buttons_parsed_url = some blank_page.url ∧
     full_bm.buttons_items ≠ [] ∧ full_bm.current_buttons_index = 0 ∧
     full_bm.last_links_parsed_url = some blank_page.url ∧
     full_bm.links_items ≠ [] ∧ full_bm.current_links_index = 0) ∧
    ((∀ m : Nat,
      (iterateNext (get_next_page_text_item blank_page sample_cfg) m full_bm).1 =
      (full_bm.text_items.map some).take m ++
        List.replicate (m - full_bm.text_items.length) none) ∧
    (∀ m : Nat,
      (iterateNext (get_next_page_buttons_item blank_page sample_cfg) m full_bm).1 =
      (full_bm.buttons_items.map some).take m ++
        List.replicate (m - full_bm.buttons_items.length) none) ∧
    (∀ m : Nat,
      (iterateNext (get_next_page_links_item blank_page sample_cfg) m full_bm).1 =
      (full_bm.links_items.map some).take m ++
        List.replicate (m - full_bm.links_items.length) none)) :=
  ⟨⟨rfl, List.cons_ne_nil _ _, rfl, rfl, List.cons_ne_nil _ _, rfl,
    rfl, List.cons_ne_nil _ _, rfl⟩,
   cursor_exhaustion blank_page sample_cfg full_bm
     rfl (List.cons_ne_nil _ _) rfl rfl (List.cons_ne_nil _ _) rfl
     rfl (List.cons_ne_nil _ _) rfl⟩
/-! ## Invalidation machinery (C1) -/

theorem parse_text_items_ne_nil (p : PageModel) (cfg : PaginationConfig) :
    parse_page_text_items p cfg ≠ [] := by
  simp only [parse_page_text_items, ne_eq, List.map_eq_nil_iff]
  split_ifs with h1 <;> simp_all [List.isEmpty_iff]

theorem parse_links_items_ne_nil (p : PageModel) (cfg : PaginationConfig) :
    parse_page_links_items p cfg ≠ [] := by
  simp only [parse_page_links_items, links_chunking, ne_eq, List.map_eq_nil_iff]
  split_ifs with h1 <;> simp_all [List.isEmpty_iff]

theorem get_next_text_materialize (p : PageModel) (cfg : PaginationConfig)
    (s : BMState)
    (htrig : s.last_text_parsed_url ≠ some p.url ∨ s.text_items = []) :
    get_next_page_text_item p cfg s =
      ((parse_page_text_items p cfg)[0]?,
       { s with text_items := parse_page_text_items p cfg,
                current_text_index := 1,
                last_text_parsed_url := some p.url }) := by
  have hlen : 0 < (parse_page_text_items p cfg).length :=
    List.length_pos.mpr (parse_text_items_ne_nil p cfg)
  rw [get_next_page_text_item]
  simp only [if_pos htrig]
  rw [dif_pos (by simpa using hlen)]
  refine Prod.ext ?_ ?_
  · simp only [List.get_eq_getElem]
    rw [← List.getElem?_eq_getElem]
    rw [if_pos htrig]
  · simp

theorem get_next_links_materialize (p : PageModel) (cfg : PaginationConfig)
    (s : BMState)
    (htrig : s.last_links_parsed_url ≠ some p.url ∨ s.links_items = []) :
    get_next_page_links_item p cfg s =
      ((parse_page_links_items p cfg)[0]?,
       { s with links_items := parse_page_links_items p cfg,
                current_links_index := 1,
                last_links_parsed_url := some p.url }) := by
  have hlen : 0 < (parse_page_links_items p cfg).length :=
    List.length_pos.mpr (parse_links_items_ne_nil p cfg)
  rw [get_next_page_links_item]
  simp only [if_pos htrig]
  rw [dif_pos (by simpa using hlen)]
  refine Prod.ext ?_ ?_
  · simp only [List.get_eq_getElem]
    rw [← List.getElem?_eq_getElem]
    rw [if_pos htrig]
  · simp

/-- The first materialized text chunk always has `item_id = 0`. -/
theorem parse_text_head_id (p : PageModel) (cfg : PaginationConfig) :
    ∀ it, (parse_page_text_items p cfg)[0]? = some it → it.item_id = 0 := by
  intro it hit
  simp only [parse_page_text_items] at hit
  rw [List.getElem?_map] at hit
  split_ifs at hit with hemp
  · simp only [List.getElem?_cons_zero, Option.map_some',
      Option.some.injEq] at hit
    rw [← hit]
  · cases hch : chunkList p.visible_text cfg.text_chunk_size with
    | nil =>
      rw [hch] at hit
      simp [buildTextItems] at hit
    | cons a l =>
      rw [hch] at hit
      simp only [buildTextItems, List.getElem?_cons_zero, Option.map_some',
        Option.some.injEq] at hit
      rw [← hit]

/-- The first materialized links chunk always has `item_id = 0`. -/
theorem parse_links_head_id (p : PageModel) (cfg : PaginationConfig) :
    ∀ it, (parse_page_links_items p cfg)[0]? = some it → it.item_id = 0 := by
  intro it hit
  simp only [parse_page_links_items, links_chunking] at hit
  rw [List.getElem?_map] at hit
  split_ifs at hit with hemp
  · simp only [List.getElem?_cons_zero, Option.map_some',
      Option.some.injEq] at hit
    rw [← hit]
  · cases hch : chunkList (extract_links p.link_elems) cfg.links_chunk_size with
    | nil =>
      rw [hch] at hit
      simp [buildLinksItems] at hit
    | cons a l =>
      rw [hch] at hit
      simp only [buildLinksItems, List.getElem?_cons_zero, Option.map_some',
        Option.some.injEq] at hit
      rw [← hit]

theorem bandsGo_head_id (be : List Button) (ie : List Input) (u t : Str)
    (h maxY : ℚ) : ∀ fuel (y : ℚ) (idx : Nat) x xs,
    bandsGo be ie u t h maxY fuel y idx = x :: xs → x.item_id = idx := by
  intro fuel y idx x xs heq
  cases fuel with
  | zero => exact absurd heq (by simp [bandsGo])
  | succ fuel =>
    rw [bandsGo] at heq
    by_cases hy : y < maxY
    · rw [if_pos hy] at heq
      have := (List.cons.injEq _ _ _ _).mp heq
      rw [← this.1]
    · rw [if_neg hy] at heq
      exact absurd heq (by simp)

/-- C1 (amended): the DOM-mutating actions type, fill, key-press, navigate
and back all reset the three pagination caches and the element registry
(`_click` performs no such reset — see the counterexample): after any of
them the post-state is the fully reset state, in which no previously issued
id resolves, and the next "get next" call of each kind triggers a fresh
materialization whose chunk 0 (always present) is delivered. -/
theorem mutating_actions_invalidate_amended (p : PageModel)
    (cfg : PaginationConfig) (s : BMState) (input_id : Nat) (key : Str)
    (hfound : (get_input_by_id s input_id).isSome = true) :
    ((tool_type true s input_id).1 = .ok () ∧
     (tool_type true s input_id).2 = navigate_resets s) ∧
    ((tool_fill true s input_id).1 = .ok () ∧
     (tool_fill true s input_id).2 = navigate_resets s) ∧
    (tool_press_key s key).2 = navigate_resets s ∧
    tool_navigate s = navigate_resets s ∧
    tool_go_back s = navigate_resets s ∧
    (∀ i : Nat, get_button_by_id (navigate_resets s) i = none) ∧
    (∀ i : Nat, get_input_by_id (navigate_resets s) i = none) ∧
    (get_next_page_text_item p cfg (navigate_resets s)).1 =
      (parse_page_text_items p cfg)[0]? ∧
    (get_next_page_buttons_item p cfg (navigate_resets s)).1 =
      ((parse_page_buttons_items p cfg).2.2)[0]? ∧
    (get_next_page_links_item p cfg (navigate_resets s)).1 =
      (parse_page_links_items p cfg)[0]? ∧
    ((parse_page_text_items p cfg)[0]?).isSome = true ∧
    (((parse_page_buttons_items p cfg).2.2)[0]?).isSome = true ∧
    ((parse_page_links_items p cfg)[0]?).isSome = true := by
  obtain ⟨ii, hii⟩ := Option.isSome_iff_exists.mp hfound
  have htype : (tool_type true s input_id).1 = .ok () ∧
      (tool_type true s input_id).2 = navigate_resets s := by
    rw [tool_type, type_text, hii]
    exact ⟨rfl, rfl⟩
  have hfill : (tool_fill true s input_id).1 = .ok () ∧
      (tool_fill true s input_id).2 = navigate_resets s := by
    rw [tool_fill, fill_input, hii]
    exact ⟨rfl, rfl⟩
  have htext := get_next_text_materialize p cfg (navigate_resets s)
    (Or.inr rfl)
  have hbuttons := get_next_buttons_materialize p cfg (navigate_resets s)
    (Or.inr rfl)
  have hlinks := get_next_links_materialize p cfg (navigate_resets s)
    (Or.inr rfl)
  refine ⟨htype, hfill, rfl, rfl, rfl, ?_, ?_, ?_, ?_, ?_, ?_, ?_, ?_⟩
  · intro i
    rfl
  · intro i
    rfl
  · rw [htext]
  · rw [hbuttons]
  · rw [hlinks]
  · rw [List.getElem?_eq_getElem
      (List.length_pos.mpr (parse_text_items_ne_nil p cfg))]
    rfl
  · rw [List.getElem?_eq_getElem
      (List.length_pos.mpr (parse_buttons_items_ne_nil p cfg))]
    rfl
  · rw [List.getElem?_eq_getElem
      (List.length_pos.mpr (parse_links_items_ne_nil p cfg))]
    rfl

/-- A state holding one registered button (id 0) and valid non-empty caches
for the URL `u`. -/
def clickable_bm : BMState :=
  { text_items := [⟨0, 1, "u".data, "t".data, []⟩],
    current_text_index := 0, last_text_parsed_url := some "u".data,
    buttons_items := [⟨0, 1, "u".data, "t".data, [⟨0, [], (0, 0), none⟩], []⟩],
    current_buttons_index := 1, last_buttons_parsed_url := some "u".data,
    links_items := [⟨0, 1, "u".data, "t".data, []⟩],
    current_links_index := 0, last_links_parsed_url := some "u".data,
    buttons_internal := [⟨0, [], (0, 0), none⟩], inputs_internal := [] }

/-- C1 counterexample: a successful `click_button` (via the `_click`
wrapper) leaves the browser-manager state completely unchanged — the three
pagination caches stay populated, the registry is not reset, and the id
issued before the click still resolves afterwards.  Click is therefore a
DOM-mutating action that does not invalidate, contradicting the claim. -/
theorem click_does_not_invalidate :
    (tool_click true clickable_bm 0).1 = .ok () ∧
    (tool_click true clickable_bm 0).2 = clickable_bm ∧
    get_button_by_id (tool_click true clickable_bm 0).2 0 =
      some ⟨0, [], (0, 0), none⟩ ∧
    (tool_click true clickable_bm 0).2.buttons_items ≠ [] ∧
    (tool_click true clickable_bm 0).2.last_buttons_parsed_url =
      some "u".data :=
  ⟨rfl, rfl, rfl, List.cons_ne_nil _ _, rfl⟩

/-- A state holding one registered input (id 0). -/
def typable_bm : BMState :=
  { text_items := [⟨0, 1, "u".data, "t".data, []⟩],
    current_text_index := 0, last_text_parsed_url := some "u".data,
    buttons_items := [⟨0, 1, "u".data, "t".data, [], []⟩],
    current_buttons_index := 1, last_buttons_parsed_url := some "u".data,
    links_items := [⟨0, 1, "u".data, "t".data, []⟩],
    current_links_index := 0, last_links_parsed_url := some "u".data,
    buttons_internal := [],
    inputs_internal := [⟨0, "text".data, [], [], (0, 0), none⟩] }

/-- C1 witness: the amended invalidation theorem applied to `typable_bm`
(which holds input id 0) over `blank_page`. -/
theorem mutating_actions_invalidate_amended_witness :
    (get_input_by_id typable_bm 0).isSome = true ∧
    (((tool_type true typable_bm 0).1 = .ok () ∧
     (tool_type true typable_bm 0).2 = navigate_resets typable_bm) ∧
    ((tool_fill true typable_bm 0).1 = .ok () ∧
     (tool_fill true typable_bm 0).2 = navigate_resets typable_bm) ∧
    (tool_press_key typable_bm "enter".data).2 = navigate_resets typable_bm ∧
    tool_navigate typable_bm = navigate_resets typable_bm ∧
    tool_go_back typable_bm = navigate_resets typable_bm ∧
    (∀ i : Nat, get_button_by_id (navigate_resets typable_bm) i = none) ∧
    (∀ i : Nat, get_input_by_id (navigate_resets typable_bm) i = none) ∧
    (get_next_page_text_item blank_page sample_cfg (navigate_resets typable_bm)).1 =
      (parse_page_text_items blank_page sample_cfg)[0]? ∧
    (get_next_page_buttons_item blank_page sample_cfg (navigate_resets typable_bm)).1 =
      ((parse_page_buttons_items blank_page sample_cfg).2.2)[0]? ∧
    (get_next_page_links_item blank_page sample_cfg (navigate_resets typable_bm)).1 =
      (parse_page_links_items blank_page sample_cfg)[0]? ∧
    ((parse_page_text_items blank_page sample_cfg)[0]?).isSome = true ∧
    (((parse_page_buttons_items blank_page sample_cfg).2.2)[0]?).isSome = true ∧
    ((parse_page_links_items blank_page sample_cfg)[0]?).isSome = true) :=
  ⟨rfl,
   mutating_actions_invalidate_amended blank_page sample_cfg typable_bm 0
     "enter".data rfl⟩
/-- C7: for an id not present in the current registry, `click_button`,
`type_text` and `fill_input` fail with the addressing error
`ElementNotFoundError(..., timeout=0)` — raised before any driver call, so
never a driver-level timeout (those would carry `timeout=5`) — and the
failed call leaves the whole browser-manager state (all three caches, their
cursors, and the registries) unchanged: the wrappers run their cache resets
only after a successful call. -/
theorem stale_id_address_error (s : BMState) (the_id : Nat) (driver_ok : Bool)
    (hb : ∀ ib ∈ s.buttons_internal, ib.id ≠ the_id)
    (hi : ∀ ii ∈ s.inputs_internal, ii.id ≠ the_id) :
    tool_click driver_ok s the_id =
      (.error (.elementNotFound ("button_id=".data ++ (toString the_id).data) 0), s) ∧
    tool_type driver_ok s the_id =
      (.error (.elementNotFound ("input_id=".data ++ (toString the_id).data) 0), s) ∧
    tool_fill driver_ok s the_id =
      (.error (.elementNotFound ("input_id=".data ++ (toString the_id).data) 0), s) := by
  have h1 : get_button_by_id s the_id = none := by
    rw [get_button_by_id, List.find?_eq_none]
    intro ib hib
    simp [hb ib hib]
  have h2 : get_input_by_id s the_id = none := by
    rw [get_input_by_id, List.find?_eq_none]
    intro ii hii
    simp [hi ii hii]
  refine ⟨?_, ?_, ?_⟩
  · rw [tool_click, click_button, h1]
  · rw [tool_type, type_text, h2]
  · rw [tool_fill, fill_input, h2]

/-- C7 witness: id 5 is not registered in `clickable_bm` (which only holds
button id 0), so all three actions fail with the timeout-0 addressing error
and the state is untouched. -/
theorem stale_id_address_error_witness :
    ((∀ ib ∈ clickable_bm.buttons_internal, ib.id ≠ 5) ∧
     (∀ ii ∈ clickable_bm.inputs_internal, ii.id ≠ 5)) ∧
    (tool_click true clickable_bm 5 =
      (.error (.elementNotFound ("button_id=".data ++ (toString 5).data) 0),
       clickable_bm) ∧
    tool_type true clickable_bm 5 =
      (.error (.elementNotFound ("input_id=".data ++ (toString 5).data) 0),
       clickable_bm) ∧
    tool_fill true clickable_bm 5 =
      (.error (.elementNotFound ("input_id=".data ++ (toString 5).data) 0),
       clickable_bm)) :=
  ⟨⟨by decide, by decide⟩,
   stale_id_address_error clickable_bm 5 true (by decide) (by decide)⟩

/-- Every branch of the per-element link pipeline ends by skipping the
element: the `Link` constructor validation failure (missing required
`position` and `selector`) drops even the healthy elements. -/
theorem extract_links_cons (e : RawLinkElem) (rest : List RawLinkElem) :
    extract_links (e :: rest) = extract_links rest := by
  rw [extract_links]
  by_cases hg : e.raises = true ∨ e.visible = false
  · rw [if_pos hg]
  · rw [if_neg hg]
    rcases hhref : e.href with _ | href
    · rfl
    · simp [linkConstructor]

/-- C8: an element whose processing raises (stale handle, detached node) or
whose bounding box is unavailable is omitted and extraction of the rest is
unaffected — the per-kind extraction never fails because one element is
unreadable.  (For links the claim holds for any raising element; note that
in this code base the `Link` constructor itself additionally rejects every
element, since the required `position` and `selector` fields are never
passed.) -/
theorem element_failure_omitted (e_b : RawButtonElem) (e_i : RawInputElem)
    (e_l : RawLinkElem)
    (hb : e_b.raises = true ∨ e_b.box = none)
    (hi : e_i.raises = true ∨ e_i.box = none)
    (hl : e_l.raises = true) :
    (∀ (c : Nat) (l1 l2 : List RawButtonElem),
      extract_buttons c (l1 ++ e_b :: l2) = extract_buttons c (l1 ++ l2)) ∧
    (∀ (c : Nat) (l1 l2 : List RawInputElem),
      extract_inputs c (l1 ++ e_i :: l2) = extract_inputs c (l1 ++ l2)) ∧
    (∀ (l1 l2 : List RawLinkElem),
      extract_links (l1 ++ e_l :: l2) = extract_links (l1 ++ l2)) := by
  refine ⟨?_, ?_, ?_⟩
  · intro c l1
    induction l1 generalizing c with
    | nil =>
      intro l2
      rw [List.nil_append, List.nil_append, extract_buttons]
      rcases hb with hr | hbox
      · rw [if_pos (Or.inl hr)]
      · by_cases hg : e_b.raises = true ∨ e_b.visible = false
        · rw [if_pos hg]
        · rw [if_neg hg, hbox]
    | cons a rest ih =>
      intro l2
      rw [List.cons_append, List.cons_append, extract_buttons]
      conv_rhs => rw [extract_buttons]
      by_cases hg : a.raises = true ∨ a.visible = false
      · rw [if_pos hg, if_pos hg]
        exact ih c l2
      · rw [if_neg hg, if_neg hg]
        rcases hbox : a.box with _ | ⟨x, y, w, h⟩
        · exact ih c l2
        · rw [ih (c + 1) l2]
  · intro c l1
    induction l1 generalizing c with
    | nil =>
      intro l2
      rw [List.nil_append, List.nil_append, extract_inputs]
      rcases hi with hr | hbox
      · rw [if_pos (Or.inl hr)]
      · by_cases hg : e_i.raises = true ∨ e_i.visible = false
        · rw [if_pos hg]
        · rw [if_neg hg, hbox]
    | cons a rest ih =>
      intro l2
      rw [List.cons_append, List.cons_append, extract_inputs]
      conv_rhs => rw [extract_inputs]
      by_cases hg : a.raises = true ∨ a.visible = false
      · rw [if_pos hg, if_pos hg]
        exact ih c l2
      · rw [if_neg hg, if_neg hg]
        rcases hbox : a.box with _ | ⟨x, y, w, h⟩
        · exact ih c l2
        · rw [ih (c + 1) l2]
  · intro l1
    induction l1 with
    | nil =>
      intro l2
      rw [List.nil_append, List.nil_append, extract_links_cons]
    | cons a rest ih =>
      intro l2
      rw [List.cons_append, List.cons_append, extract_links_cons,
        extract_links_cons, ih l2]

/-- C8 witness: a raising button element, a box-less input element and a
raising link element are each omitted. -/
theorem element_failure_omitted_witness :
    (((⟨true, none, none, some (0, 0, 0, 0), none, true⟩ :
        RawButtonElem).raises = true ∨
      (⟨true, none, none, some (0, 0, 0, 0), none, true⟩ :
        RawButtonElem).box = none) ∧
     ((⟨true, some "t".data, false, none, none, none, none, false⟩ :
        RawInputElem).raises = true ∨
      (⟨true, some "t".data, false, none, none, none, none, false⟩ :
        RawInputElem).box = none) ∧
     (⟨true, none, none, some "h".data, false, [], none, true⟩ :
        RawLinkElem).raises = true) ∧
    ((∀ (c : Nat) (l1 l2 : List RawButtonElem),
      extract_buttons c
        (l1 ++ (⟨true, none, none, some (0, 0, 0, 0), none, true⟩ :
          RawButtonElem) :: l2) = extract_buttons c (l1 ++ l2)) ∧
    (∀ (c : Nat) (l1 l2 : List RawInputElem),
      extract_inputs c
        (l1 ++ (⟨true, some "t".data, false, none, none, none, none, false⟩ :
          RawInputElem) :: l2) = extract_inputs c (l1 ++ l2)) ∧
    (∀ (l1 l2 : List RawLinkElem),
      extract_links
        (l1 ++ (⟨true, none, none, some "h".data, false, [], none, true⟩ :
          RawLinkElem) :: l2) = extract_links (l1 ++ l2))) :=
  ⟨⟨Or.inl rfl, Or.inr rfl, rfl⟩,
   element_failure_omitted _ _ _ (Or.inl rfl) (Or.inr rfl) rfl⟩
/-! ## Decision/act loop bounds (C9) -/

theorem attemptGo_consumed_bound (ev : Nat → Option StreamStep) :
    ∀ (remaining i : Nat), (attemptGo ev remaining i).2 ≤ i + remaining + 1 := by
  intro remaining
  induction remaining with
  | zero =>
    intro i
    rw [attemptGo]
    cases hev : ev i with
    | none => simp
    | some step => cases step <;> simp
  | succ r ih =>
    intro i
    rw [attemptGo]
    cases hev : ev i with
    | none => simp; omega
    | some step =>
      cases step with
      | normal =>
        have := ih (i + 1)
        simp only []
        omega
      | toolError => simp
      | fatalError => simp

theorem runAttempt_consumed_bound (ev : Nat → Option StreamStep)
    (max_steps : Nat) : (runAttempt ev max_steps).2 ≤ max_steps + 1 := by
  have := attemptGo_consumed_bound ev max_steps 0
  rw [runAttempt]
  omega

theorem taskGo_attempts_bound (att : Nat → Nat → Option StreamStep)
    (max_steps : Nat) : ∀ (left k : Nat),
    (taskGo att max_steps left k).2 ≤ k + left := by
  intro left
  induction left with
  | zero => intro k; simp [taskGo]
  | succ l ih =>
    intro k
    rw [taskGo]
    cases hout : (runAttempt (att k) max_steps).1 with
    | completed => simp
    | stepLimit => simp
    | toolError =>
      have := ih (k + 1)
      simp only []
      omega
    | fatalError => simp

theorem taskGo_all_toolError (att : Nat → Nat → Option StreamStep)
    (max_steps : Nat)
    (hall : ∀ j : Nat, (runAttempt (att j) max_steps).1 = .toolError) :
    ∀ (left k : Nat),
    taskGo att max_steps left k = (.failedRetries, k + left) := by
  intro left
  induction left with
  | zero => intro k; simp [taskGo]
  | succ l ih =>
    intro k
    rw [taskGo, hall k, ih (k + 1)]
    rw [show k + 1 + l = k + (l + 1) by omega]

/-- C9 (amended): the loop terminates, and its bounds are: the retry loop
executes at most `max_retries + 1` attempts; each attempt processes at most
`max_steps + 1` stream events before stopping (the `step_count > max`
check fires only after the event numbered `max_steps + 1`, and the counter
restarts on every retry, so the whole task is bounded by
`(max_retries + 1) * (max_steps + 1)` events, not by `max_steps` alone);
and when every attempt raises a recoverable tool failure, exceeding the
retry bound ends the task in the terminal failure state after exactly
`max_retries + 1` attempts. -/
theorem loop_bounds_amended (att : Nat → Nat → Option StreamStep)
    (max_retries max_steps : Nat) :
    (runTask att max_retries max_steps).2 ≤ max_retries + 1 ∧
    (∀ ev : Nat → Option StreamStep,
      (runAttempt ev max_steps).2 ≤ max_steps + 1) ∧
    ((∀ j : Nat, (runAttempt (att j) max_steps).1 = .toolError) →
      runTask att max_retries max_steps =
        (.failedRetries, max_retries + 1)) := by
  refine ⟨?_, ?_, ?_⟩
  · have := taskGo_attempts_bound att max_steps (max_retries + 1) 0
    rw [runTask]
    omega
  · intro ev
    exact runAttempt_consumed_bound ev max_steps
  · intro hall
    rw [runTask, taskGo_all_toolError att max_steps hall (max_retries + 1) 0]
    norm_num

/-- The attempt streams of the concrete retry scenario: attempt 0 raises a
recoverable tool error on its first event, attempt 1 emits normal events
forever. -/
def cex_attempts : Nat → Nat → Option StreamStep :=
  fun k i =>
    if k = 0 then (if i = 0 then some .toolError else some .normal)
    else some .normal

/-- C9 counterexample: with `max_steps = 1` an attempt on an endless stream
processes 2 events before the step-limit break (not at most 1, the
configured maximum), and in the retry scenario the whole task processes
1 + 2 = 3 events across its 2 attempts — the per-attempt step budget
restarts on retry, so the configured maximum step count bounds neither an
attempt nor the whole task. -/
theorem step_bound_counterexample :
    (runAttempt (fun _ => some StreamStep.normal) 1).2 = 2 ∧
    (runAttempt (fun _ => some StreamStep.normal) 1).1 =
      AttemptOutcome.stepLimit ∧
    (runTask cex_attempts 1 1).2 = 2 ∧
    (runAttempt (cex_attempts 0) 1).2 + (runAttempt (cex_attempts 1) 1).2 = 3 := by
  decide

/-- C9 witness: the amended bounds at `max_retries = 2`, `max_steps = 3`,
with every attempt failing recoverably. -/
theorem loop_bounds_amended_witness :
    ((runTask (fun _ _ => some StreamStep.toolError) 2 3).2 ≤ 2 + 1 ∧
    (∀ ev : Nat → Option StreamStep, (runAttempt ev 3).2 ≤ 3 + 1) ∧
    ((∀ j : Nat,
        (runAttempt ((fun _ _ => some StreamStep.toolError) j) 3).1 =
          .toolError) →
      runTask (fun _ _ => some StreamStep.toolError) 2 3 =
        (.failedRetries, 2 + 1))) ∧
    runTask (fun _ _ => some StreamStep.toolError) 2 3 =
      (.failedRetries, 2 + 1) :=
  ⟨loop_bounds_amended (fun _ _ => some StreamStep.toolError) 2 3,
   (loop_bounds_amended (fun _ _ => some StreamStep.toolError) 2 3).2.2
     (fun _ => rfl)⟩
end ChromeAgent
